import Mathlib

/-!
# CGPA calculator (`src/src/App.js`)

A shallow embedding of the state and event handlers of the `App` component:
the grade table, `handleNumSubjectsChange`, `handleSubjectChange`,
`calculateCGPA`, `resetCalculator`, `saveToLocalStorage`,
`loadFromLocalStorage` and the subject table of `buildReportHtml`.

Modelling conventions.

* A JavaScript number is a `JSNum`: `NaN`, the two infinities, or a finite
  value held as a rational.  Every arithmetic operation and `parseFloat`
  round their exact result to the nearest IEEE-754 binary64 value, ties to
  even, with gradual underflow and overflow to infinity.  The sign of zero is
  not modelled.
* Strings are Lean strings; `null` is `none`.
* React state is a record that every handler maps to the next record; the
  `alert` a handler raises is returned next to it.
-/

namespace CGPA

/-! ## JavaScript numbers -/

/-- A JavaScript number: `NaN`, `Infinity`, `-Infinity` or a finite value.
The finite values that the operations below produce are the values of
IEEE-754 binary64. -/
inductive JSNum where
  | nan
  | posInf
  | negInf
  | fin (q : ℚ)
  deriving DecidableEq

namespace JSNum

/-- The negation `-x`. -/
def neg : JSNum → JSNum
  | nan => nan
  | posInf => negInf
  | negInf => posInf
  | fin q => fin (-q)

/-- The power `2^e` for an integer exponent. -/
def pow2 (e : ℤ) : ℚ :=
  if 0 ≤ e then (2 : ℚ) ^ e.toNat else 1 / (2 : ℚ) ^ (-e).toNat

/-- The number of halvings that bring `n` below 2, with at most `fuel`
steps. -/
def log2Fuel : ℕ → ℕ → ℕ
  | 0, _ => 0
  | fuel + 1, n => if 2 ≤ n then log2Fuel fuel (n / 2) + 1 else 0

/-- The largest `k` with `2^k ≤ n`, for `n > 0`. -/
def natLog2 (n : ℕ) : ℕ := log2Fuel n n

/-- The largest `e` with `2^e ≤ q`, for `q > 0`. -/
def floorLog2 (q : ℚ) : ℤ :=
  let e0 : ℤ := (natLog2 q.num.toNat : ℤ) - (natLog2 q.den : ℤ)
  if pow2 e0 ≤ q then e0 else e0 - 1

/-- The integer nearest to `x ≥ 0`, the even one on a tie. -/
def roundHalfEven (x : ℚ) : ℤ :=
  let f := ⌊x⌋
  if x - f < 1 / 2 then f
  else if 1 / 2 < x - f then f + 1
  else if f % 2 = 0 then f else f + 1

/-- The binary64 value nearest to `q > 0` (round to nearest, ties to even):
53 significant bits, exponents down to `-1022` (below that the spacing stays
`2^-1074`), and `Infinity` from `2^1024` on. -/
def roundPos (q : ℚ) : JSNum :=
  let e := max (floorLog2 q) (-1022)
  let ulp := pow2 (e - 52)
  let v := (roundHalfEven (q / ulp) : ℚ) * ulp
  if pow2 1024 ≤ v then posInf else fin v

/-- The binary64 value nearest to the rational `q`. -/
def round64 (q : ℚ) : JSNum :=
  if q = 0 then fin 0 else if q < 0 then neg (roundPos (-q)) else roundPos q

/-- The comparison `x > 0`. -/
def gt0 : JSNum → Bool
  | nan => false
  | posInf => true
  | negInf => false
  | fin q => decide (0 < q)

/-- The sum `x + y`. -/
def add : JSNum → JSNum → JSNum
  | nan, _ => nan
  | posInf, nan => nan
  | posInf, negInf => nan
  | posInf, _ => posInf
  | negInf, nan => nan
  | negInf, posInf => nan
  | negInf, _ => negInf
  | fin _, nan => nan
  | fin _, posInf => posInf
  | fin _, negInf => negInf
  | fin a, fin b => round64 (a + b)

/-- An infinity of the given sign (`neg = true` for `-Infinity`). -/
def infOfSign ( neg : Bool) : JSNum := if neg then negInf else posInf

/-- The product of an infinity (of sign `neg`) and a finite value. -/
def mulInf ( neg : Bool) (q : ℚ) : JSNum :=
  if q = 0 then nan else infOfSign (neg != decide (q < 0))

/-- The product `x * y`. -/
def mul : JSNum → JSNum → JSNum
  | nan, _ => nan
  | posInf, nan => nan
  | posInf, posInf => posInf
  | posInf, negInf => negInf
  | posInf, fin b => mulInf false b
  | negInf, nan => nan
  | negInf, posInf => negInf
  | negInf, negInf => posInf
  | negInf, fin b => mulInf true b
  | fin _, nan => nan
  | fin a, posInf => mulInf false a
  | fin a, negInf => mulInf true a
  | fin a, fin b => round64 (a * b)

/-- The quotient `x / y`. -/
def div : JSNum → JSNum → JSNum
  | nan, _ => nan
  | posInf, fin b => infOfSign (decide (b < 0))
  | posInf, _ => nan
  | negInf, fin b => infOfSign (!decide (b < 0))
  | negInf, _ => nan
  | fin _, nan => nan
  | fin _, posInf => fin 0
  | fin _, negInf => fin 0
  | fin a, fin b => if b = 0 then mulInf false a else round64 (a / b)

/-- The digits of `Number.prototype.toFixed(2)` for the integer `n` of
hundredths: the decimal digits of `n`, left-padded with zeros to three
characters, with the point before the last two. -/
def fixed2Digits (n : ℕ) : String :=
  let m := (toString n).toList
  let m := if m.length ≤ 2 then List.replicate (3 - m.length) '0' ++ m else m
  String.mk (m.take (m.length - 2)) ++ "." ++ String.mk (m.drop (m.length - 2))

/-- The nearest integer number of hundredths to `x ≥ 0`, the larger one on a
tie (`toFixed` picks the larger `n` when two are equally close). -/
def hundredths (x : ℚ) : ℕ := ⌊x * 100 + 1 / 2⌋.toNat

/-- The string `x.toFixed(2)`.  (For `|x| ≥ 10^21` JavaScript switches to
`String(x)`; a quotient of the two totals does not reach that range, and it
is rendered here in the same fixed notation.) -/
def toFixed2 : JSNum → String
  | nan => "NaN"
  | posInf => "Infinity"
  | negInf => "-Infinity"
  | fin q => (if q < 0 then "-" else "") ++ fixed2Digits (hundredths |q|)

end JSNum

/-! ## `parseFloat` -/

/-- The characters `parseFloat` skips at the start of its argument
(ECMAScript `WhiteSpace` and `LineTerminator`). -/
def isStrWhiteSpaceChar (c : Char) : Bool :=
  let n := c.toNat
  n = 0x09 || n = 0x0A || n = 0x0B || n = 0x0C || n = 0x0D || n = 0x20 ||
  n = 0xA0 || n = 0x1680 || (0x2000 ≤ n && n ≤ 0x200A) || n = 0x2028 ||
  n = 0x2029 || n = 0x202F || n = 0x205F || n = 0x3000 || n = 0xFEFF

/-- The value of a run of decimal digits. -/
def digitsValue (ds : List Char) : ℕ :=
  ds.foldl (fun acc c => 10 * acc + (c.toNat - 48)) 0

/-- The exponent part at the start of `cs`, if there is one: `e` or `E`, an
optional sign and at least one digit. -/
def exponentPart (cs : List Char) : ℤ :=
  match cs with
  | c :: rest =>
    if c = 'e' || c = 'E' then
      match rest with
      | '-' :: ds =>
        let run := ds.takeWhile Char.isDigit
        if run.isEmpty then 0 else - (digitsValue run : ℤ)
      | '+' :: ds => (digitsValue (ds.takeWhile Char.isDigit) : ℤ)
      | ds => (digitsValue (ds.takeWhile Char.isDigit) : ℤ)
    else 0
  | [] => 0

/-- The value `m * 10^e`. -/
def scale10 (m : ℚ) (e : ℤ) : ℚ :=
  if 0 ≤ e then m * (10 : ℚ) ^ e.toNat else m / (10 : ℚ) ^ (-e).toNat

/-- The unsigned decimal literal at the start of `cs`: `Infinity`, or digits
with an optional fraction and exponent, rounded to binary64; `NaN` when there
is none. -/
def parseUnsigned (cs : List Char) : JSNum :=
  if "Infinity".toList.isPrefixOf cs then JSNum.posInf
  else
    let ip := cs.takeWhile Char.isDigit
    let r1 := cs.dropWhile Char.isDigit
    match r1 with
    | '.' :: r =>
      let fp := r.takeWhile Char.isDigit
      let r2 := r.dropWhile Char.isDigit
      if ip.isEmpty && fp.isEmpty then JSNum.nan
      else
        JSNum.round64 (scale10
          ((digitsValue ip : ℚ) + (digitsValue fp : ℚ) / (10 : ℚ) ^ fp.length)
          (exponentPart r2))
    | _ =>
      if ip.isEmpty then JSNum.nan
      else JSNum.round64 (scale10 (digitsValue ip : ℚ) (exponentPart r1))

/-- The global `parseFloat(s)`: skip leading white space, read an optional
sign and the longest decimal literal that follows; `NaN` when there is none. -/
def parseFloat (s : String) : JSNum :=
  match s.toList.dropWhile isStrWhiteSpaceChar with
  | '-' :: cs => (parseUnsigned cs).neg
  | '+' :: cs => parseUnsigned cs
  | cs => parseUnsigned cs

/-! ## Subjects and the grade table -/

/-- One entry of the `subjects` state (the object built at `App.js:42-48`). -/
structure Subject where
  id : ℕ
  name : String
  grade : String
  credits : String
  excluded : Bool
  deriving DecidableEq

/-- What a property lookup on the object `gradeMapping` finds: a grade point
of the object literal, or a member inherited from `Object.prototype` (a
function, or for `__proto__` the prototype object itself). -/
inductive GradeEntry where
  | gradePoint (n : ℕ)
  | inherited
  deriving DecidableEq

/-- The property names that a plain object inherits from `Object.prototype`. -/
def objectPrototypeKeys : List String :=
  ["constructor", "__defineGetter__", "__defineSetter__", "hasOwnProperty",
   "__lookupGetter__", "__lookupSetter__", "isPrototypeOf",
   "propertyIsEnumerable", "toString", "valueOf", "__proto__",
   "toLocaleString"]

/-- The lookup `gradeMapping[grade]` (`App.js:27-35`, `91`); `none` is
`undefined`.  The seven keys of the object literal give their grade point;
the inherited property names give an inherited member, which is not
`undefined`. -/
def gradeMapping (grade : String) : Option GradeEntry :=
  if grade = "Ex" then some (GradeEntry.gradePoint 10)
  else if grade = "A" then some (GradeEntry.gradePoint 9)
  else if grade = "B" then some (GradeEntry.gradePoint 8)
  else if grade = "C" then some (GradeEntry.gradePoint 7)
  else if grade = "D" then some (GradeEntry.gradePoint 6)
  else if grade = "E" then some (GradeEntry.gradePoint 5)
  else if grade = "F" then some (GradeEntry.gradePoint 0)
  else if grade ∈ objectPrototypeKeys then some GradeEntry.inherited
  else none

/-- The number an entry is converted to as an operand of `*`: the grade
point itself, and `NaN` for a function or an object. -/
def GradeEntry.toNumber : GradeEntry → JSNum
  | GradeEntry.gradePoint n => JSNum.fin n
  | GradeEntry.inherited => JSNum.nan

/-! ## `calculateCGPA` -/

/-- The local variables of `calculateCGPA` (`App.js:75-78`). -/
structure Totals where
  totalGradePoints : JSNum
  totalCredits : JSNum
  isValid : Bool
  includedSubjects : ℕ
  deriving DecidableEq

/-- The values the locals start with. -/
def Totals.init : Totals :=
  { totalGradePoints := JSNum.fin 0, totalCredits := JSNum.fin 0,
    isValid := true, includedSubjects := 0 }

/-- The body of the `forEach` callback (`App.js:80-101`). -/
def visitSubject (t : Totals) (subject : Subject) : Totals :=
  if subject.excluded then t
  else if subject.grade = "" ∨ subject.credits = "" then
    { t with isValid := false }
  else
    let credits := parseFloat subject.credits
    match gradeMapping subject.grade with
    | some gradePoint =>
      if credits.gt0 then
        { t with
          totalGradePoints :=
            t.totalGradePoints.add (gradePoint.toNumber.mul credits)
          totalCredits := t.totalCredits.add credits
          includedSubjects := t.includedSubjects + 1 }
      else { t with isValid := false }
    | none => { t with isValid := false }

/-- What one click on "Calculate CGPA" does: either both results are set, or
an alert is raised and the state is left alone. -/
inductive Outcome where
  | result (cgpa percentage : String)
  | alert (message : String)
  deriving DecidableEq

/-- The text of the validation alert (`App.js:116`). -/
def validationMessage : String :=
  "Please fill in all non-excluded fields with valid values"

/-- The handler `calculateCGPA` (`App.js:74-118`) as a function of the
`subjects` state. -/
def calculateCGPA (subjects : List Subject) : Outcome :=
  let t := subjects.foldl visitSubject Totals.init
  if t.isValid && t.totalCredits.gt0 && decide (t.includedSubjects > 0) then
    let calculatedCGPA := t.totalGradePoints.div t.totalCredits
    Outcome.result calculatedCGPA.toFixed2
      ((calculatedCGPA.mul (JSNum.fin (19 / 2))).toFixed2)
  else Outcome.alert validationMessage

/-! ## Component state -/

/-- The value of the `numSubjects` state: the initial empty string, the result
of `parseInt` (an integer or `NaN`), or the `null` that `JSON.stringify`
writes for `NaN`. -/
inductive NumSubjects where
  | emptyString
  | num (n : ℤ)
  | nan
  | null
  deriving DecidableEq

/-- The object `data` written by `saveToLocalStorage` (`App.js:129-136`), as
`JSON.parse` reads it back from the `cgpaData` slot. -/
structure SavedData where
  numSubjects : NumSubjects
  subjects : List Subject
  cgpa : Option String
  percentage : Option String
  studentName : String
  timestamp : String
  deriving DecidableEq

/-- The `useState` cells of `App` (`App.js:6-13`) together with the `cgpaData`
slot of `localStorage`.  (The `theme` cell and its slot are left out: no
handler below reads or writes them.) -/
structure AppState where
  numSubjects : NumSubjects
  subjects : List Subject
  cgpa : Option String
  showCalculator : Bool
  percentage : Option String
  studentName : String
  cgpaData : Option SavedData
  deriving DecidableEq

/-- The state after the first render, with nothing stored. -/
def AppState.initial : AppState :=
  { numSubjects := NumSubjects.emptyString, subjects := [], cgpa := none,
    showCalculator := false, percentage := none, studentName := "",
    cgpaData := none }

/-- The `numSubjects` value for a `parseInt` result (`none` is `NaN`). -/
def NumSubjects.ofParseInt : Option ℤ → NumSubjects
  | some n => NumSubjects.num n
  | none => NumSubjects.nan

/-- The entry that `Array.from` builds at position `index` (`App.js:42-48`). -/
def newSubject (index : ℕ) : Subject :=
  { id := index, name := "Subject " ++ toString (index + 1), grade := "",
    credits := "", excluded := false }

/-- The largest length an array can have, `2^32 - 1`. -/
def maxArrayLength : ℤ := 4294967295

/-- The exception that `Array.from` throws for a length above
`maxArrayLength`. -/
def rangeError : String := "RangeError: Invalid array length"

/-- Whether `Array.from({ length: num }, ...)` at `App.js:42` is reached and
throws: `num > 0` and `num` is above the largest array length. -/
def arrayFromThrows : Option ℤ → Bool
  | some n => decide (n > 0) && decide (n > maxArrayLength)
  | none => false

/-- The handler `handleNumSubjectsChange` (`App.js:37-63`); `num` is the value
of `parseInt(e.target.value)`, `none` for `NaN`.  The result is the state
after the handler and the exception it throws, if any: when `Array.from`
throws, only `setNumSubjects` has been called.  (Running out of memory below
the largest array length is not modelled.) -/
def handleNumSubjectsChange (s : AppState) (num : Option ℤ) :
    AppState × Option String :=
  let s := { s with numSubjects := NumSubjects.ofParseInt num }
  if arrayFromThrows num then (s, some rangeError)
  else
    let s :=
      match num with
      | some n =>
        if n > 0 then
          { s with
            subjects := (List.range n.toNat).map newSubject
            showCalculator := true }
        else { s with subjects := [], showCalculator := false }
      | none => { s with subjects := [], showCalculator := false }
    ({ s with cgpa := none, percentage := none }, none)

/-- A `field`/`value` pair as the four call sites of `handleSubjectChange`
pass it (`App.js:362`, `371`, `385`, `399`). -/
inductive FieldValue where
  | name (value : String)
  | grade (value : String)
  | credits (value : String)
  | excluded (value : Bool)
  deriving DecidableEq

/-- The object spread with one field replaced (`App.js:67`). -/
def Subject.withField (subject : Subject) : FieldValue → Subject
  | FieldValue.name v => { subject with name := v }
  | FieldValue.grade v => { subject with grade := v }
  | FieldValue.credits v => { subject with credits := v }
  | FieldValue.excluded v => { subject with excluded := v }

/-- The handler `handleSubjectChange` (`App.js:65-72`). -/
def handleSubjectChange (s : AppState) (index : ℤ) (fv : FieldValue) :
    AppState :=
  let updatedSubjects :=
    s.subjects.mapIdx fun i subject =>
      if (i : ℤ) = index then subject.withField fv else subject
  { s with subjects := updatedSubjects, cgpa := none, percentage := none }

/-- The handler `calculateCGPA` on the component state: the setters it calls
and the alert it raises. -/
def clickCalculate (s : AppState) : AppState × Option String :=
  match calculateCGPA s.subjects with
  | Outcome.result cgpa percentage =>
    ({ s with cgpa := some cgpa, percentage := some percentage }, none)
  | Outcome.alert message => (s, some message)

/-- The handler `resetCalculator` (`App.js:120-126`). -/
def resetCalculator (s : AppState) : AppState :=
  { s with
    numSubjects := NumSubjects.emptyString, subjects := [], cgpa := none,
    percentage := none, showCalculator := false }

/-- What `JSON.parse (JSON.stringify v)` gives for a `numSubjects` value:
`NaN` is written as `null`. -/
def NumSubjects.throughJSON : NumSubjects → NumSubjects
  | NumSubjects.nan => NumSubjects.null
  | v => v

/-- The handler `saveToLocalStorage` (`App.js:128-139`); `timestamp` is
`new Date().toISOString()`.  The slot holds the JSON text of `data`; it is
kept here as the value that text parses to (strings, booleans, integers,
`null` and arrays of objects of these are read back unchanged). -/
def saveToLocalStorage (s : AppState) (timestamp : String) :
    AppState × Option String :=
  let data : SavedData :=
    { numSubjects := s.numSubjects.throughJSON, subjects := s.subjects,
      cgpa := s.cgpa, percentage := s.percentage,
      studentName := s.studentName, timestamp := timestamp }
  ({ s with cgpaData := some data }, some "Data saved successfully!")

/-- The handler `loadFromLocalStorage` (`App.js:142-161`). -/
def loadFromLocalStorage (s : AppState) : AppState × Option String :=
  match s.cgpaData with
  | some data =>
    ({ s with
        numSubjects := data.numSubjects
        subjects := data.subjects
        cgpa := data.cgpa
        percentage := data.percentage
        studentName := if data.studentName = "" then "" else data.studentName
        showCalculator := true }, none)
  | none => (s, some "No saved data found!")

/-- The `onChange` handler of the student name input (`App.js:302`). -/
def setStudentName (s : AppState) (value : String) : AppState :=
  { s with studentName := value }

/-- A user event. -/
inductive Event where
  | setSubjectCount (num : Option ℤ)
  | updateSubject (index : ℤ) (fv : FieldValue)
  | calculate
  | reset
  | editName (value : String)
  | save (timestamp : String)
  | load
  deriving DecidableEq

/-- The state after one event. -/
def step (s : AppState) : Event → AppState
  | Event.setSubjectCount num => (handleNumSubjectsChange s num).1
  | Event.updateSubject index fv => handleSubjectChange s index fv
  | Event.calculate => (clickCalculate s).1
  | Event.reset => resetCalculator s
  | Event.editName value => setStudentName s value
  | Event.save timestamp => (saveToLocalStorage s timestamp).1
  | Event.load => (loadFromLocalStorage s).1

/-- The state after a sequence of events. -/
def run (s : AppState) (events : List Event) : AppState :=
  events.foldl step s

/-- Whether the event is one of the edits: anything but `save` and `load`. -/
def Event.isEdit : Event → Bool
  | Event.save _ => false
  | Event.load => false
  | _ => true

/-! ## The report -/

/-- The fixed text of the report template (`App.js:166-220`) up to the title. -/
def reportPart1 : String :=
  String.join [
    "<!DOCTYPE html>\n",
    "    <html>\n",
    "      <head>\n",
    "        <meta charset=\"utf-8\" />\n",
    "        <title>CGPA_Report"]

/-- The fixed text of the report template (`App.js:166-220`) from the title to the generation date. -/
def reportPart2 : String :=
  String.join [
    "</title>\n",
    "        <style>\n",
    "          body \x7b font-family: \x27Segoe UI\x27, Tahoma, Geneva, Verdana, sans-serif; padding: 24px; color: #1a202c; \x7d\n",
    "          h1 \x7b margin: 0 0 4px 0; font-size: 28px; \x7d\n",
    "          h2 \x7b margin: 24px 0 12px 0; font-size: 20px; \x7d\n",
    "          .muted \x7b color: #4a5568; \x7d\n",
    "          .header \x7b display:flex; justify-content: space-between; align-items: baseline; border-bottom: 2px solid #e2e8f0; padding-bottom: 12px; margin-bottom: 16px; \x7d\n",
    "          .summary \x7b display:grid; grid-template-columns: repeat(auto-fit, minmax(220px, 1fr)); gap: 12px; margin: 12px 0 20px; \x7d\n",
    "          .card \x7b border: 1px solid #e2e8f0; border-radius: 8px; padding: 12px; \x7d\n",
    "          .value \x7b font-size: 24px; font-weight: 700; \x7d\n",
    "          table \x7b width: 100%; border-collapse: collapse; margin-top: 8px; \x7d\n",
    "          th, td \x7b border: 1px solid #e2e8f0; padding: 8px 10px; text-align: left; \x7d\n",
    "          th \x7b background: #f7fafc; \x7d\n",
    "          .footer \x7b margin-top: 24px; font-size: 12px; color: #718096; \x7d\n",
    "\n",
    "          /* Print styles for better mobile Save as PDF */\n",
    "          @page \x7b size: A4; margin: 16mm; \x7d\n",
    "          @media print \x7b\n",
    "            body \x7b padding: 0; \x7d\n",
    "            .header \x7b page-break-after: avoid; \x7d\n",
    "            table \x7b page-break-inside: auto; \x7d\n",
    "            tr \x7b page-break-inside: avoid; page-break-after: auto; \x7d\n",
    "            thead \x7b display: table-header-group; \x7d\n",
    "            tfoot \x7b display: table-footer-group; \x7d\n",
    "          \x7d\n",
    "        </style>\n",
    "      </head>\n",
    "      <body>\n",
    "        <div class=\"header\">\n",
    "          <div>\n",
    "            <h1>CGPA Report</h1>\n",
    "            <div class=\"muted\">Generated on "]

/-- The fixed text of the report template (`App.js:166-220`) from the date to the student line. -/
def reportPart3 : String :=
  String.join [
    "</div>\n",
    "          </div>\n",
    "          <div class=\"muted\">"]

/-- The fixed text of the report template (`App.js:166-220`) from the student line to the CGPA value. -/
def reportPart4 : String :=
  String.join [
    "</div>\n",
    "        </div>\n",
    "        <div class=\"summary\">\n",
    "          <div class=\"card\">\n",
    "            <div class=\"muted\">CGPA</div>\n",
    "            <div class=\"value\">"]

/-- The fixed text of the report template (`App.js:166-220`) from the CGPA value to the table body. -/
def reportPart5 : String :=
  String.join [
    "</div>\n",
    "          </div>\n",
    "        </div>\n",
    "        <h2>Subjects Included</h2>\n",
    "        <table>\n",
    "          <thead><tr><th>#</th><th>Subject</th><th>Grade</th><th>Credits</th></tr></thead>\n",
    "          <tbody>\n",
    "            "]

/-- The fixed text of the report template (`App.js:166-220`) after the table rows. -/
def reportPart6 : String :=
  String.join [
    "\n",
    "          </tbody>\n",
    "        </table>\n",
    "        <div class=\"footer\">Excluded subjects are omitted from this report.</div>\n",
    "      </body>\n",
    "    </html>"]

/-- The replacement `studentName.replace(/[^a-z0-9-]/gi, '_')`: every UTF-16
code unit that is not an ASCII letter, a digit or a hyphen becomes an
underscore. -/
def fileSafe (studentName : String) : String :=
  String.join (studentName.toList.map fun c =>
    if c.isAlphanum || c = '-' then c.toString
    else if c.toNat ≥ 0x10000 then "__" else "_")

/-- The subjects the report lists (`App.js:164`). -/
def included (subjects : List Subject) : List Subject :=
  subjects.filter fun s => !s.excluded

/-- One row of the subject table: the callback of `included.map`
(`App.js:215`). -/
def reportRow (i : ℕ) (s : Subject) : String :=
  "<tr><td>" ++ toString (i + 1) ++ "</td><td>" ++ s.name ++ "</td><td>" ++
    s.grade ++ "</td><td>" ++ s.credits ++ "</td></tr>"

/-- The rows of the subject table, before they are joined. -/
def reportRows (subjects : List Subject) : List String :=
  (included subjects).mapIdx reportRow

/-- The function `buildReportHtml` (`App.js:163-221`); `date` is
`new Date().toLocaleString()`. -/
def buildReportHtml (s : AppState) (date : String) : String :=
  reportPart1 ++
    (if s.studentName ≠ "" then "_" ++ fileSafe s.studentName else "") ++
    reportPart2 ++ date ++ reportPart3 ++
    (if s.studentName ≠ "" then "Student: " ++ s.studentName else "") ++
    reportPart4 ++ (s.cgpa.getD "-") ++ reportPart5 ++
    String.join (reportRows s.subjects) ++ reportPart6

/-! ## Specification-side definitions -/

/-- Whether a subject passes the checks of the loop body: grade and credits
both non-empty, the grade in the table, the credits parsed to a value `> 0`. -/
def Subject.valid (s : Subject) : Bool :=
  decide (s.grade ≠ "") && decide (s.credits ≠ "") &&
    (gradeMapping s.grade).isSome && (parseFloat s.credits).gt0

/-- The number that the lookup of a subject's grade contributes as the left
operand of `gradePoint * credits` (`NaN` when the lookup finds nothing). -/
def Subject.gradePoint (s : Subject) : JSNum :=
  match gradeMapping s.grade with
  | some entry => entry.toNumber
  | none => JSNum.nan

/-- The sum of a list of JavaScript numbers, added left to right from `0`. -/
def jsSum (xs : List JSNum) : JSNum := xs.foldl JSNum.add (JSNum.fin 0)

/-- The quotient before rounding: the left-to-right sum of grade point times
credits over the left-to-right sum of credits, both over the non-excluded
subjects. -/
def unroundedCGPA (subjects : List Subject) : JSNum :=
  (jsSum ((subjects.filter fun s => !s.excluded).map fun s =>
      s.gradePoint.mul (parseFloat s.credits))).div
    (jsSum ((subjects.filter fun s => !s.excluded).map fun s =>
      parseFloat s.credits))

/-- The grade-point table as the specification words it:
Ex=10, A=9, B=8, C=7, D=6, E=5, F=0. -/
def point (grade : String) : ℚ :=
  if grade = "Ex" then 10
  else if grade = "A" then 9
  else if grade = "B" then 8
  else if grade = "C" then 7
  else if grade = "D" then 6
  else if grade = "E" then 5
  else 0

/-- The finite number a subject's credits parse to (`0` when they parse to
`NaN` or an infinity). -/
def creditValue (s : Subject) : ℚ :=
  match parseFloat s.credits with
  | JSNum.fin c => c
  | _ => 0

/-- The weighted mean as the specification words it, in exact arithmetic:
Σ(point(grade) × credits) / Σ(credits), both sums over the non-excluded
subjects. -/
def exactMean (subjects : List Subject) : ℚ :=
  ((subjects.filter fun s => !s.excluded).map fun s =>
      point s.grade * creditValue s).sum /
    ((subjects.filter fun s => !s.excluded).map creditValue).sum

/-- The weighted mean evaluated in binary64 arithmetic, in list order: every
product point(grade) × credits, every partial sum and the quotient are
rounded to the nearest binary64 value. -/
def binary64Mean (subjects : List Subject) : JSNum :=
  (jsSum ((subjects.filter fun s => !s.excluded).map fun s =>
      (JSNum.fin (point s.grade)).mul (parseFloat s.credits))).div
    (jsSum ((subjects.filter fun s => !s.excluded).map fun s =>
      parseFloat s.credits))

/-- The smallest positive binary64 value, `2^-1074`. -/
def JSNum.minPositive : ℚ := JSNum.pow2 (-1074)

/-- A number that is `Infinity` or a finite value of at least `2^-1074`. -/
def JSNum.Positive (x : JSNum) : Prop :=
  x = JSNum.posInf ∨ ∃ q, x = JSNum.fin q ∧ JSNum.minPositive ≤ q

/-- A number that is `Infinity`, zero, or a finite value of at least
`2^-1074`. -/
def JSNum.ZeroOrPositive (x : JSNum) : Prop :=
  x = JSNum.fin 0 ∨ x.Positive

/-- A number that is not negative: `NaN`, `Infinity`, or a finite value
`≥ 0`. -/
def JSNum.NotNegative : JSNum → Prop
  | JSNum.nan => True
  | JSNum.posInf => True
  | JSNum.negInf => False
  | JSNum.fin q => 0 ≤ q

/-! ## Concrete inputs -/

/-- Two subjects, none excluded: grade A with 4 credits, grade B with 3. -/
def subjectsAB : List Subject :=
  [{ id := 0, name := "Subject 1", grade := "A", credits := "4", excluded := false },
   { id := 1, name := "Subject 2", grade := "B", credits := "3", excluded := false }]

/-- Twelve subjects whose exact weighted mean is 100.5/100 = 1.005, a tie
between two hundredths. -/
def subjectsTie : List Subject :=
  [{ id := 0, name := "Subject 1", grade := "E", credits := "1.5", excluded := false },
   { id := 1, name := "Subject 2", grade := "D", credits := "10", excluded := false },
   { id := 2, name := "Subject 3", grade := "D", credits := "5.5", excluded := false },
   { id := 3, name := "Subject 4", grade := "F", credits := "10", excluded := false },
   { id := 4, name := "Subject 5", grade := "F", credits := "10", excluded := false },
   { id := 5, name := "Subject 6", grade := "F", credits := "10", excluded := false },
   { id := 6, name := "Subject 7", grade := "F", credits := "10", excluded := false },
   { id := 7, name := "Subject 8", grade := "F", credits := "10", excluded := false },
   { id := 8, name := "Subject 9", grade := "F", credits := "10", excluded := false },
   { id := 9, name := "Subject 10", grade := "F", credits := "10", excluded := false },
   { id := 10, name := "Subject 11", grade := "F", credits := "10", excluded := false },
   { id := 11, name := "Subject 12", grade := "F", credits := "3", excluded := false }]

/-- Grade A with 1 credit and grade B with 7.000000000000001 credits: the exact
mean lies just below 8.125. -/
def subjectsNearTie : List Subject :=
  [{ id := 0, name := "Subject 1", grade := "A", credits := "1", excluded := false },
   { id := 1, name := "Subject 2", grade := "B", credits := "7.000000000000001",
     excluded := false }]

/-- One subject with grade Ex and 1e308 credits. -/
def subjectsOverflow : List Subject :=
  [{ id := 0, name := "Subject 1", grade := "Ex", credits := "1e308", excluded := false }]

/-- One subject whose grade is the inherited property name `constructor`, with
3 credits. -/
def subjectsInherited : List Subject :=
  [{ id := 0, name := "Subject 1", grade := "constructor", credits := "3",
     excluded := false }]

/-- One excluded subject with empty grade and credits, one included subject
with grade F and 5 credits. -/
def subjectsExcludedF : List Subject :=
  [{ id := 0, name := "Subject 1", grade := "", credits := "", excluded := true },
   { id := 1, name := "Subject 2", grade := "F", credits := "5", excluded := false }]

/-- A state with two filled-in subjects, a result and a student name. -/
def stateAB : AppState :=
  { numSubjects := NumSubjects.num 2, subjects := subjectsAB,
    cgpa := some "8.57", showCalculator := true, percentage := some "81.43",
    studentName := "Asha", cgpaData := none }

/-- Edits made after a save: a new subject count, an edit of one subject, a
new calculation attempt, a reset and a new student name. -/
def editsAfterSave : List Event :=
  [Event.setSubjectCount (some 3),
   Event.updateSubject 1 (FieldValue.grade "C"),
   Event.calculate,
   Event.reset,
   Event.editName "Ravi"]

/-- A session: two subjects are created and filled in, the result is
calculated and saved, the calculator is reset and the saved data loaded. -/
def sessionAB : List Event :=
  [Event.setSubjectCount (some 2),
   Event.updateSubject 0 (FieldValue.grade "A"),
   Event.updateSubject 0 (FieldValue.credits "4"),
   Event.updateSubject 1 (FieldValue.grade "B"),
   Event.updateSubject 1 (FieldValue.credits "3"),
   Event.calculate,
   Event.save "2024-01-01T00:00:00.000Z",
   Event.reset,
   Event.load]

/-- A session in which the one subject is given the grade `constructor` and
3 credits, and the result is calculated. -/
def sessionInherited : List Event :=
  [Event.setSubjectCount (some 1),
   Event.updateSubject 0 (FieldValue.grade "constructor"),
   Event.updateSubject 0 (FieldValue.credits "3"),
   Event.calculate]

/-! ## Freshness of a result -/

/-- A pair of result cells is fresh for a subject list when both are absent,
or both are present and are what `calculateCGPA` produces on that list. -/
def Fresh (subjects : List Subject) (cgpa percentage : Option String) : Prop :=
  (cgpa = none ∧ percentage = none) ∨
    ∃ c p, cgpa = some c ∧ percentage = some p ∧
      calculateCGPA subjects = Outcome.result c p

/-- The invariant of a session: the displayed result is fresh for the current
subjects, and so is the result stored with the saved subjects. -/
def Consistent (s : AppState) : Prop :=
  Fresh s.subjects s.cgpa s.percentage ∧
    ∀ d, s.cgpaData = some d → Fresh d.subjects d.cgpa d.percentage

/-! ## Subject ids -/

/-- The ids of a subject list, in order. -/
def subjectIds (subjects : List Subject) : List ℕ :=
  subjects.map fun s => s.id

/-- The ids of the current list are pairwise distinct, and so are the ids of
the list held in the `cgpaData` slot. -/
def IdsDistinct (s : AppState) : Prop :=
  (subjectIds s.subjects).Nodup ∧
    ∀ d, s.cgpaData = some d → (subjectIds d.subjects).Nodup

/-- Two subject-count changes in one session: first to 2, then to 1. -/
def twoCountChanges : List Event :=
  [Event.setSubjectCount (some 2), Event.setSubjectCount (some 1)]

/-! ## Rounding to binary64 -/

namespace JSNum

theorem log2Fuel_eq (fuel n : ℕ) (h : n ≤ fuel) : log2Fuel fuel n = Nat.log2 n := by
  induction fuel generalizing n with
  | zero =>
    have hn : n = 0 := by omega
    subst hn
    rw [log2Fuel, Nat.log2]
    simp
  | succ fuel ih =>
    rw [log2Fuel, Nat.log2]
    by_cases h2 : 2 ≤ n
    · simp only [h2, if_true, ge_iff_le]
      rw [ih (n / 2) (by omega)]
    · simp [h2]

theorem natLog2_eq (n : ℕ) : natLog2 n = Nat.log2 n :=
  log2Fuel_eq n n (le_refl n)

theorem pow2_eq_zpow (e : ℤ) : pow2 e = (2 : ℚ) ^ e := by
  unfold pow2
  split
  · rename_i h
    conv_rhs => rw [← Int.toNat_of_nonneg h]
    rw [zpow_natCast]
  · rename_i h
    have hneg : 0 ≤ -e := by omega
    have he : e = -((-e).toNat : ℤ) := by rw [Int.toNat_of_nonneg hneg]; ring
    conv_rhs => rw [he]
    rw [zpow_neg, zpow_natCast, one_div]

theorem pow2_pos (e : ℤ) : 0 < pow2 e := by
  rw [pow2_eq_zpow]
  positivity

theorem pow2_le_pow2 {a b : ℤ} (h : a ≤ b) : pow2 a ≤ pow2 b := by
  rw [pow2_eq_zpow, pow2_eq_zpow]
  exact zpow_le_zpow_right₀ (by norm_num) h

theorem pow2_floorLog2_le (q : ℚ) (hq : 0 < q) : pow2 (floorLog2 q) ≤ q := by
  unfold floorLog2
  simp only
  split
  · assumption
  · have hnum : 0 < q.num := Rat.num_pos.mpr hq
    have hN : ((q.num.toNat : ℕ) : ℤ) = q.num := Int.toNat_of_nonneg (le_of_lt hnum)
    have hN0 : q.num.toNat ≠ 0 := by omega
    have h1 : 2 ^ Nat.log2 q.num.toNat ≤ q.num.toNat := Nat.log2_self_le hN0
    have h2 : q.den < 2 ^ (Nat.log2 q.den + 1) := Nat.lt_log2_self
    have hNq : ((q.num.toNat : ℕ) : ℚ) = (q.num : ℚ) := by
      rw [← Int.cast_natCast, hN]
    have hq' : q = (q.num.toNat : ℚ) / (q.den : ℚ) := by
      rw [hNq]
      exact (Rat.num_div_den q).symm
    rw [natLog2_eq, natLog2_eq, pow2_eq_zpow]
    have hexp : ((Nat.log2 q.num.toNat : ℕ) : ℤ) - ((Nat.log2 q.den : ℕ) : ℤ) - 1 =
        ((Nat.log2 q.num.toNat : ℕ) : ℤ) - ((Nat.log2 q.den + 1 : ℕ) : ℤ) := by
      push_cast
      ring
    rw [hexp, zpow_sub₀ (by norm_num : (2 : ℚ) ≠ 0), zpow_natCast, zpow_natCast]
    conv_rhs => rw [hq']
    have hden : (0 : ℚ) < (q.den : ℚ) := by exact_mod_cast q.den_pos
    apply div_le_div₀
    · exact_mod_cast Nat.zero_le _
    · exact_mod_cast h1
    · exact hden
    · exact_mod_cast le_of_lt h2

theorem lt_pow2_floorLog2_succ (q : ℚ) (hq : 0 < q) : q < pow2 (floorLog2 q + 1) := by
  unfold floorLog2
  simp only
  split
  · have hnum : 0 < q.num := Rat.num_pos.mpr hq
    have hN : ((q.num.toNat : ℕ) : ℤ) = q.num := Int.toNat_of_nonneg (le_of_lt hnum)
    have hD0 : q.den ≠ 0 := q.den_nz
    have h1 : q.num.toNat < 2 ^ (Nat.log2 q.num.toNat + 1) := Nat.lt_log2_self
    have h2 : 2 ^ Nat.log2 q.den ≤ q.den := Nat.log2_self_le hD0
    have hNq : ((q.num.toNat : ℕ) : ℚ) = (q.num : ℚ) := by
      rw [← Int.cast_natCast, hN]
    have hq' : q = (q.num.toNat : ℚ) / (q.den : ℚ) := by
      rw [hNq]
      exact (Rat.num_div_den q).symm
    rw [natLog2_eq, natLog2_eq, pow2_eq_zpow]
    have hexp : ((Nat.log2 q.num.toNat : ℕ) : ℤ) - ((Nat.log2 q.den : ℕ) : ℤ) + 1 =
        ((Nat.log2 q.num.toNat + 1 : ℕ) : ℤ) - ((Nat.log2 q.den : ℕ) : ℤ) := by
      push_cast
      ring
    rw [hexp, zpow_sub₀ (by norm_num : (2 : ℚ) ≠ 0), zpow_natCast, zpow_natCast]
    conv_lhs => rw [hq']
    have hden : (0 : ℚ) < (q.den : ℚ) := by exact_mod_cast q.den_pos
    have hpow : (0 : ℚ) < (2 : ℚ) ^ Nat.log2 q.den := by positivity
    rw [div_lt_div_iff₀ hden hpow]
    have h1' : ((q.num.toNat : ℕ) : ℚ) < (2 : ℚ) ^ (Nat.log2 q.num.toNat + 1) := by
      exact_mod_cast h1
    have h2' : (2 : ℚ) ^ Nat.log2 q.den ≤ (q.den : ℚ) := by exact_mod_cast h2
    have hN0 : (0 : ℚ) ≤ ((q.num.toNat : ℕ) : ℚ) := by positivity
    calc ((q.num.toNat : ℕ) : ℚ) * (2 : ℚ) ^ Nat.log2 q.den
        ≤ ((q.num.toNat : ℕ) : ℚ) * (q.den : ℚ) := mul_le_mul_of_nonneg_left h2' hN0
      _ < (2 : ℚ) ^ (Nat.log2 q.num.toNat + 1) * (q.den : ℚ) :=
          mul_lt_mul_of_pos_right h1' hden
  · rename_i h
    rw [sub_add_cancel]
    exact not_le.mp h

/-- The rounded integer is within one half of the argument. -/
theorem roundHalfEven_near (x : ℚ) : |(roundHalfEven x : ℚ) - x| ≤ 1 / 2 := by
  have h1 := Int.floor_le x
  have h2 := Int.lt_floor_add_one x
  unfold roundHalfEven
  simp only
  rw [abs_le]
  split_ifs <;> push_cast <;> constructor <;> linarith

/-- For `2^-1022 ≤ q` the exponent is not clamped, and the multiple of the
spacing that rounding picks is within `2^-53` of the size of `q`; this is the
relative precision of binary64. -/
theorem rounded_value_near (q : ℚ) (hq : pow2 (-1022) ≤ q) :
    -1022 ≤ floorLog2 q ∧
      |(roundHalfEven (q / pow2 (floorLog2 q - 52)) : ℚ) * pow2 (floorLog2 q - 52) - q| ≤
        q * pow2 (-53) := by
  have hpos : 0 < q := lt_of_lt_of_le (pow2_pos _) hq
  have hfl : -1022 ≤ floorLog2 q := by
    by_contra hlt
    have hlt' : floorLog2 q + 1 ≤ -1022 := by omega
    have := lt_of_lt_of_le (lt_pow2_floorLog2_succ q hpos) (pow2_le_pow2 hlt')
    exact absurd hq (not_le.mpr this)
  refine ⟨hfl, ?_⟩
  have hulp := pow2_pos (floorLog2 q - 52)
  have hnear := roundHalfEven_near (q / pow2 (floorLog2 q - 52))
  have hscale : pow2 (floorLog2 q - 52) = pow2 (floorLog2 q) * pow2 (-52) := by
    rw [pow2_eq_zpow, pow2_eq_zpow, pow2_eq_zpow, ← zpow_add₀ (by norm_num : (2 : ℚ) ≠ 0)]
    congr 1
  have hhalf : pow2 (-52) * (1 / 2) = pow2 (-53) := by
    rw [pow2_eq_zpow, pow2_eq_zpow]
    norm_num
  have hle := pow2_floorLog2_le q hpos
  have heq : (roundHalfEven (q / pow2 (floorLog2 q - 52)) : ℚ) * pow2 (floorLog2 q - 52) - q =
      ((roundHalfEven (q / pow2 (floorLog2 q - 52)) : ℚ) - q / pow2 (floorLog2 q - 52)) *
        pow2 (floorLog2 q - 52) := by
    field_simp
  rw [heq, abs_mul, abs_of_pos hulp]
  calc |(roundHalfEven (q / pow2 (floorLog2 q - 52)) : ℚ) - q / pow2 (floorLog2 q - 52)| *
        pow2 (floorLog2 q - 52)
      ≤ 1 / 2 * pow2 (floorLog2 q - 52) := mul_le_mul_of_nonneg_right hnear (le_of_lt hulp)
    _ = pow2 (floorLog2 q) * (pow2 (-52) * (1 / 2)) := by rw [hscale]; ring
    _ = pow2 (floorLog2 q) * pow2 (-53) := by rw [hhalf]
    _ ≤ q * pow2 (-53) := mul_le_mul_of_nonneg_right hle (le_of_lt (pow2_pos _))

/-- For `2^-1022 ≤ q` with a finite result, rounding moves `q` by at most
`2^-53` of its size. -/
theorem roundPos_near (q v : ℚ) (hq : pow2 (-1022) ≤ q) (hv : roundPos q = fin v) :
    |v - q| ≤ q * pow2 (-53) := by
  obtain ⟨hfl, hnear⟩ := rounded_value_near q hq
  unfold roundPos at hv
  simp only [max_eq_left hfl] at hv
  split at hv
  · exact JSNum.noConfusion hv
  · injection hv with hv
    rw [← hv]
    exact hnear

/-- For `2^-1022 ≤ q ≤ 2^1023` the result of rounding is finite and within
`2^-53` of the size of `q`. -/
theorem round64_near (q : ℚ) (hq : pow2 (-1022) ≤ q) (hhigh : q ≤ pow2 1023) :
    ∃ v, round64 q = fin v ∧ |v - q| ≤ q * pow2 (-53) := by
  have hpos : 0 < q := lt_of_lt_of_le (pow2_pos _) hq
  obtain ⟨hfl, hnear⟩ := rounded_value_near q hq
  have hsmall : pow2 (-53) < 1 := by
    rw [pow2_eq_zpow]
    norm_num
  have hdouble : pow2 1024 = 2 * pow2 1023 := by
    rw [pow2_eq_zpow, pow2_eq_zpow]
    norm_num
  have hfin : ¬ pow2 1024 ≤
      (roundHalfEven (q / pow2 (floorLog2 q - 52)) : ℚ) * pow2 (floorLog2 q - 52) := by
    have h1 := (abs_le.mp hnear).2
    have h2 : q * pow2 (-53) < q := by
      calc q * pow2 (-53) < q * 1 := mul_lt_mul_of_pos_left hsmall hpos
        _ = q := mul_one q
    rw [hdouble]
    intro hcontra
    linarith
  refine ⟨_, ?_, hnear⟩
  unfold round64
  rw [if_neg (ne_of_gt hpos), if_neg (not_lt.mpr (le_of_lt hpos))]
  unfold roundPos
  simp only [max_eq_left hfl]
  rw [if_neg hfin]

theorem roundHalfEven_ge_floor (x : ℚ) : ⌊x⌋ ≤ roundHalfEven x := by
  unfold roundHalfEven
  simp only
  split_ifs <;> omega

theorem roundHalfEven_nonneg (x : ℚ) (hx : 0 ≤ x) : 0 ≤ roundHalfEven x :=
  le_trans (Int.floor_nonneg.mpr hx) (roundHalfEven_ge_floor x)

theorem one_le_roundHalfEven (x : ℚ) (hx : 1 ≤ x) : 1 ≤ roundHalfEven x := by
  have h : (1 : ℤ) ≤ ⌊x⌋ := Int.le_floor.mpr (by exact_mod_cast hx)
  exact le_trans h (roundHalfEven_ge_floor x)

theorem minPositive_le_ulp (q : ℚ) :
    minPositive ≤ pow2 (max (floorLog2 q) (-1022) - 52) := by
  unfold minPositive
  apply pow2_le_pow2
  have := le_max_right (floorLog2 q) (-1022)
  omega

theorem ulp_le (q : ℚ) (hq : minPositive ≤ q) :
    pow2 (max (floorLog2 q) (-1022) - 52) ≤ q := by
  have hpos : 0 < q := lt_of_lt_of_le (pow2_pos _) hq
  rcases le_total (floorLog2 q) (-1022) with h | h
  · rw [max_eq_right h]
    exact hq
  · rw [max_eq_left h]
    exact le_trans (pow2_le_pow2 (by omega)) (pow2_floorLog2_le q hpos)

theorem roundPos_zeroOrPositive (q : ℚ) (hq : 0 ≤ q) : (roundPos q).ZeroOrPositive := by
  unfold roundPos
  simp only
  split
  · exact Or.inr (Or.inl rfl)
  · have hulp := pow2_pos (max (floorLog2 q) (-1022) - 52)
    have hr := roundHalfEven_nonneg (q / pow2 (max (floorLog2 q) (-1022) - 52))
      (div_nonneg hq (le_of_lt hulp))
    rcases eq_or_lt_of_le hr with h0 | hpos
    · left
      rw [← h0]
      simp
    · right
      right
      refine ⟨_, rfl, ?_⟩
      have h1 : (1 : ℚ) ≤ (roundHalfEven (q / pow2 (max (floorLog2 q) (-1022) - 52)) : ℚ) := by
        exact_mod_cast hpos
      calc minPositive ≤ pow2 (max (floorLog2 q) (-1022) - 52) := minPositive_le_ulp q
        _ = 1 * pow2 (max (floorLog2 q) (-1022) - 52) := (one_mul _).symm
        _ ≤ _ := mul_le_mul_of_nonneg_right h1 (le_of_lt hulp)

theorem roundPos_positive (q : ℚ) (hq : minPositive ≤ q) : (roundPos q).Positive := by
  unfold roundPos
  simp only
  split
  · exact Or.inl rfl
  · right
    refine ⟨_, rfl, ?_⟩
    have hulp := pow2_pos (max (floorLog2 q) (-1022) - 52)
    have hone : 1 ≤ q / pow2 (max (floorLog2 q) (-1022) - 52) :=
      (one_le_div hulp).mpr (ulp_le q hq)
    have h1 : (1 : ℚ) ≤ (roundHalfEven (q / pow2 (max (floorLog2 q) (-1022) - 52)) : ℚ) := by
      exact_mod_cast one_le_roundHalfEven _ hone
    calc minPositive ≤ pow2 (max (floorLog2 q) (-1022) - 52) := minPositive_le_ulp q
      _ = 1 * pow2 (max (floorLog2 q) (-1022) - 52) := (one_mul _).symm
      _ ≤ _ := mul_le_mul_of_nonneg_right h1 (le_of_lt hulp)

theorem minPositive_pos : 0 < minPositive := pow2_pos _

theorem Positive.gt0_eq {x : JSNum} (h : x.Positive) : x.gt0 = true := by
  rcases h with rfl | ⟨q, rfl, hq⟩
  · rfl
  · simp [gt0, lt_of_lt_of_le minPositive_pos hq]

theorem round64_positive (q : ℚ) (hq : minPositive ≤ q) : (round64 q).Positive := by
  have hpos : 0 < q := lt_of_lt_of_le minPositive_pos hq
  unfold round64
  rw [if_neg (ne_of_gt hpos), if_neg (not_lt.mpr (le_of_lt hpos))]
  exact roundPos_positive q hq

theorem ZeroOrPositive.neg_gt0 {x : JSNum} (h : x.ZeroOrPositive) :
    x.neg.gt0 = false := by
  rcases h with rfl | rfl | ⟨q, rfl, hq⟩
  · simp [neg, gt0]
  · rfl
  · have := lt_of_lt_of_le minPositive_pos hq
    simp [neg, gt0, le_of_lt this]

theorem ZeroOrPositive.of_gt0 {x : JSNum} (h : x.ZeroOrPositive)
    (hg : x.gt0 = true) : x.Positive := by
  rcases h with rfl | h
  · simp [gt0] at hg
  · exact h

theorem neg_neg_eq (x : JSNum) : x.neg.neg = x := by
  cases x <;> simp [neg]

/-- A rounded value is zero, positive, or the negation of a positive one. -/
theorem round64_cases (q : ℚ) :
    (round64 q).ZeroOrPositive ∨ (round64 q).neg.ZeroOrPositive := by
  unfold round64
  split
  · exact Or.inl (Or.inl rfl)
  · split
    · rename_i hneg
      right
      rw [neg_neg_eq]
      exact roundPos_zeroOrPositive (-q) (by linarith)
    · rename_i hnz hnn
      exact Or.inl (roundPos_zeroOrPositive q (not_lt.mp hnn))

theorem round64_gt0 (q : ℚ) (h : (round64 q).gt0 = true) : (round64 q).Positive := by
  rcases round64_cases q with hz | hz
  · exact hz.of_gt0 h
  · have := hz.neg_gt0
    rw [neg_neg_eq] at this
    rw [this] at h
    exact absurd h (by decide)

theorem round64_zeroOrPositive (q : ℚ) (hq : 0 ≤ q) : (round64 q).ZeroOrPositive := by
  unfold round64
  split
  · exact Or.inl rfl
  · rw [if_neg (not_lt.mpr hq)]
    exact roundPos_zeroOrPositive q hq

theorem positive_add {a b : JSNum} (ha : a = fin 0 ∨ a.Positive) (hb : b.Positive) :
    (a.add b).Positive := by
  rcases hb with rfl | ⟨q, rfl, hq⟩
  · rcases ha with rfl | rfl | ⟨p, rfl, _⟩
    · exact Or.inl rfl
    · exact Or.inl rfl
    · exact Or.inl rfl
  · rcases ha with rfl | rfl | ⟨p, rfl, hp⟩
    · exact round64_positive _ (by linarith)
    · exact Or.inl rfl
    · exact round64_positive _ (by linarith [minPositive_pos])

end JSNum

theorem scale10_nonneg (m : ℚ) (e : ℤ) (hm : 0 ≤ m) : 0 ≤ scale10 m e := by
  unfold scale10
  split
  · positivity
  · positivity

theorem parseUnsigned_cases (cs : List Char) :
    parseUnsigned cs = JSNum.nan ∨ (parseUnsigned cs).ZeroOrPositive := by
  unfold parseUnsigned
  split
  · exact Or.inr (Or.inr (Or.inl rfl))
  · simp only
    split
    · split
      · exact Or.inl rfl
      · right
        apply JSNum.round64_zeroOrPositive
        apply scale10_nonneg
        positivity
    · split
      · exact Or.inl rfl
      · right
        apply JSNum.round64_zeroOrPositive
        apply scale10_nonneg
        positivity

theorem neg_parseUnsigned_gt0 (cs : List Char) :
    (parseUnsigned cs).neg.gt0 = false := by
  rcases parseUnsigned_cases cs with h | h
  · rw [h]; rfl
  · exact h.neg_gt0

theorem parseUnsigned_gt0 (cs : List Char) (hg : (parseUnsigned cs).gt0 = true) :
    (parseUnsigned cs).Positive := by
  rcases parseUnsigned_cases cs with h | h
  · rw [h] at hg
    exact absurd hg (by decide)
  · exact h.of_gt0 hg

/-- Credits that parse to a value `> 0` parse to `Infinity` or to a finite
value of at least `2^-1074`. -/
theorem parseFloat_gt0 (s : String) (hg : (parseFloat s).gt0 = true) :
    (parseFloat s).Positive := by
  unfold parseFloat at hg ⊢
  split at hg
  · rw [neg_parseUnsigned_gt0] at hg
    exact absurd hg (by decide)
  · exact parseUnsigned_gt0 _ hg
  · exact parseUnsigned_gt0 _ hg

theorem parseFloat_empty : parseFloat "" = JSNum.nan := by decide

/-! ## The loop of `calculateCGPA` -/

theorem visitSubject_excluded (t : Totals) (s : Subject)
    (h : s.excluded = true) : visitSubject t s = t := by
  simp [visitSubject, h]

theorem visitSubject_invalid (t : Totals) (s : Subject)
    (h : s.excluded = false) (hv : s.valid = false) :
    visitSubject t s = { t with isValid := false } := by
  unfold visitSubject
  simp only [h, Bool.false_eq_true, if_false]
  split
  · rfl
  · rename_i hne
    have hg : s.grade ≠ "" := fun e => hne (Or.inl e)
    have hc : s.credits ≠ "" := fun e => hne (Or.inr e)
    cases hm : gradeMapping s.grade with
    | none => rfl
    | some gp =>
      have : (parseFloat s.credits).gt0 = false := by
        simpa [Subject.valid, hg, hc, hm] using hv
      simp [this]

theorem visitSubject_valid (t : Totals) (s : Subject)
    (h : s.excluded = false) (hv : s.valid = true) :
    visitSubject t s =
      { t with
        totalGradePoints :=
          t.totalGradePoints.add (s.gradePoint.mul (parseFloat s.credits))
        totalCredits := t.totalCredits.add (parseFloat s.credits)
        includedSubjects := t.includedSubjects + 1 } := by
  simp only [Subject.valid, Bool.and_eq_true, decide_eq_true_eq] at hv
  obtain ⟨⟨⟨hg, hc⟩, hm⟩, hp⟩ := hv
  obtain ⟨gp, hgp⟩ := Option.isSome_iff_exists.mp hm
  unfold visitSubject
  simp [h, hg, hc, hgp, hp, Subject.gradePoint]

/-- The loop, in closed form: the totals run over the non-excluded valid
subjects, and the flag records whether every non-excluded subject was valid. -/
theorem foldl_visitSubject (subjects : List Subject) (t : Totals) :
    subjects.foldl visitSubject t =
      { totalGradePoints :=
          (((included subjects).filter Subject.valid).map fun s =>
            s.gradePoint.mul (parseFloat s.credits)).foldl JSNum.add
              t.totalGradePoints
        totalCredits :=
          (((included subjects).filter Subject.valid).map fun s =>
            parseFloat s.credits).foldl JSNum.add t.totalCredits
        isValid := t.isValid && (included subjects).all Subject.valid
        includedSubjects :=
          t.includedSubjects + ((included subjects).filter Subject.valid).length } := by
  induction subjects generalizing t with
  | nil => simp [included]
  | cons s rest ih =>
    rw [List.foldl_cons, ih]
    cases he : s.excluded with
    | true => simp [visitSubject_excluded t s he, included, he]
    | false =>
      cases hv : s.valid with
      | false =>
        simp [visitSubject_invalid t s he hv, included, he, hv]
      | true =>
        simp [visitSubject_valid t s he hv, included, he, hv, Nat.add_assoc,
          Nat.add_comm 1]

theorem positive_foldl_add (xs : List JSNum) (a : JSNum) (ha : a.Positive)
    (hxs : ∀ x ∈ xs, x.Positive) : (xs.foldl JSNum.add a).Positive := by
  induction xs generalizing a with
  | nil => exact ha
  | cons x rest ih =>
    rw [List.foldl_cons]
    exact ih (a.add x) (JSNum.positive_add (Or.inr ha) (hxs x (List.mem_cons_self _ _)))
      (fun y hy => hxs y (List.mem_cons_of_mem _ hy))

theorem positive_jsSum (xs : List JSNum) (hne : xs ≠ [])
    (hxs : ∀ x ∈ xs, x.Positive) : (jsSum xs).Positive := by
  cases xs with
  | nil => exact absurd rfl hne
  | cons x rest =>
    unfold jsSum
    rw [List.foldl_cons]
    exact positive_foldl_add rest _
      (JSNum.positive_add (Or.inl rfl) (hxs x (List.mem_cons_self _ _)))
      (fun y hy => hxs y (List.mem_cons_of_mem _ hy))

/-- The handler in closed form: it succeeds exactly when some subject is not
excluded and all of those are valid, and then renders the unrounded quotient
and 9.5 times the unrounded quotient. -/
theorem calculateCGPA_eq (subjects : List Subject) :
    calculateCGPA subjects =
      if (included subjects).all Subject.valid = true ∧ included subjects ≠ [] then
        Outcome.result (unroundedCGPA subjects).toFixed2
          ((unroundedCGPA subjects).mul (JSNum.fin (19 / 2))).toFixed2
      else Outcome.alert validationMessage := by
  unfold calculateCGPA unroundedCGPA
  change _ = if (included subjects).all Subject.valid = true ∧ included subjects ≠ [] then
        Outcome.result
          ((jsSum ((included subjects).map fun s =>
              s.gradePoint.mul (parseFloat s.credits))).div
            (jsSum ((included subjects).map fun s => parseFloat s.credits))).toFixed2
          (((jsSum ((included subjects).map fun s =>
              s.gradePoint.mul (parseFloat s.credits))).div
            (jsSum ((included subjects).map fun s => parseFloat s.credits))).mul
              (JSNum.fin (19 / 2))).toFixed2
      else Outcome.alert validationMessage
  simp only [foldl_visitSubject, Totals.init, Bool.true_and, Nat.zero_add]
  by_cases hall : (included subjects).all Subject.valid = true
  · have hfilter : (included subjects).filter Subject.valid = included subjects :=
      List.filter_eq_self.mpr (fun s hs => List.all_eq_true.mp hall s hs)
    rw [hfilter]
    by_cases hne : included subjects = []
    · simp [hne, JSNum.gt0]
    · have hpos : (jsSum ((included subjects).map fun s =>
          parseFloat s.credits)).gt0 = true := by
        apply JSNum.Positive.gt0_eq
        apply positive_jsSum
        · simpa using hne
        · intro x hx
          obtain ⟨s, hs, rfl⟩ := List.mem_map.mp hx
          have := List.all_eq_true.mp hall s hs
          simp only [Subject.valid, Bool.and_eq_true] at this
          exact parseFloat_gt0 _ this.2
      have hlen : 0 < (included subjects).length := List.length_pos.mpr hne
      simp only [jsSum] at hpos ⊢
      simp [hall, hne, hpos, hlen]
  · simp [hall]

/-! ## The weighted mean -/

namespace JSNum

theorem ZeroOrPositive.notNegative {x : JSNum} (h : x.ZeroOrPositive) :
    x.NotNegative := by
  rcases h with rfl | rfl | ⟨q, rfl, hq⟩
  · exact le_refl (0 : ℚ)
  · trivial
  · exact le_of_lt (lt_of_lt_of_le minPositive_pos hq)

theorem round64_notNegative (q : ℚ) (hq : 0 ≤ q) : (round64 q).NotNegative :=
  (round64_zeroOrPositive q hq).notNegative

theorem notNegative_add {a b : JSNum} (ha : a.NotNegative) (hb : b.NotNegative) :
    (a.add b).NotNegative := by
  cases a <;> cases b <;> first
    | exact ha.elim
    | exact hb.elim
    | trivial
    | exact round64_notNegative _ (add_nonneg ha hb)

theorem NotNegative.mul_fin {p : ℚ} {b : JSNum} (hp : 0 ≤ p) (hb : b.NotNegative) :
    ((fin p).mul b).NotNegative := by
  cases b with
  | nan => trivial
  | posInf =>
    show (mulInf false p).NotNegative
    unfold mulInf
    split
    · trivial
    · simp [infOfSign, not_lt.mpr hp, NotNegative]
  | negInf => exact hb.elim
  | fin c => exact round64_notNegative _ (mul_nonneg hp hb)

theorem NotNegative.div {a b : JSNum} (ha : a.NotNegative) (hb : b.Positive) :
    (a.div b).NotNegative := by
  rcases hb with rfl | ⟨c, rfl, hc⟩
  · cases a with
    | nan => trivial
    | posInf => trivial
    | negInf => exact ha.elim
    | fin q => exact le_refl (0 : ℚ)
  · have hcpos : 0 < c := lt_of_lt_of_le minPositive_pos hc
    cases a with
    | nan => trivial
    | posInf => simp [JSNum.div, infOfSign, not_lt.mpr (le_of_lt hcpos), NotNegative]
    | negInf => exact ha.elim
    | fin q =>
      show (if c = 0 then mulInf false q else round64 (q / c)).NotNegative
      rw [if_neg (ne_of_gt hcpos)]
      exact round64_notNegative _ (div_nonneg ha (le_of_lt hcpos))

end JSNum

theorem notNegative_foldl_add (xs : List JSNum) (a : JSNum) (ha : a.NotNegative)
    (hxs : ∀ x ∈ xs, x.NotNegative) : (xs.foldl JSNum.add a).NotNegative := by
  induction xs generalizing a with
  | nil => exact ha
  | cons x rest ih =>
    rw [List.foldl_cons]
    exact ih (a.add x) (JSNum.notNegative_add ha (hxs x (List.mem_cons_self _ _)))
      (fun y hy => hxs y (List.mem_cons_of_mem _ hy))

theorem notNegative_jsSum (xs : List JSNum) (hxs : ∀ x ∈ xs, x.NotNegative) :
    (jsSum xs).NotNegative :=
  notNegative_foldl_add xs _ (le_refl (0 : ℚ)) hxs

theorem gradeMapping_of_mem (g : String)
    (h : g ∈ ["Ex", "A", "B", "C", "D", "E", "F"]) :
    g ≠ "" ∧ ∃ p : ℕ, gradeMapping g = some (GradeEntry.gradePoint p) ∧ point g = p := by
  simp only [List.mem_cons, List.mem_singleton, List.not_mem_nil, or_false] at h
  rcases h with rfl | rfl | rfl | rfl | rfl | rfl | rfl
  · exact ⟨by decide, 10, by decide, by simp [point]⟩
  · exact ⟨by decide, 9, by decide, by simp [point]⟩
  · exact ⟨by decide, 8, by decide, by simp [point]⟩
  · exact ⟨by decide, 7, by decide, by simp [point]⟩
  · exact ⟨by decide, 6, by decide, by simp [point]⟩
  · exact ⟨by decide, 5, by decide, by simp [point]⟩
  · exact ⟨by decide, 0, by decide, by simp [point]⟩

theorem point_nonneg (g : String) : 0 ≤ point g := by
  unfold point
  split_ifs <;> norm_num

theorem hundredths_near (q : ℚ) (hq : 0 ≤ q) :
    |(JSNum.hundredths q : ℚ) / 100 - q| ≤ 1 / 200 := by
  unfold JSNum.hundredths
  have hnn : (0 : ℤ) ≤ ⌊q * 100 + 1 / 2⌋ := Int.floor_nonneg.mpr (by positivity)
  have hcast : ((⌊q * 100 + 1 / 2⌋.toNat : ℕ) : ℚ) = (⌊q * 100 + 1 / 2⌋ : ℚ) := by
    rw [← Int.cast_natCast, Int.toNat_of_nonneg hnn]
  rw [hcast, abs_le]
  have h1 := Int.floor_le (q * 100 + 1 / 2)
  have h2 := Int.lt_floor_add_one (q * 100 + 1 / 2)
  constructor <;> linarith

theorem toFixed2_of_nonneg (q : ℚ) (hq : 0 ≤ q) :
    (JSNum.fin q).toFixed2 = JSNum.fixed2Digits (JSNum.hundredths q) := by
  simp [JSNum.toFixed2, not_lt.mpr hq, abs_of_nonneg hq]

theorem valid_of_grade_credits (s : Subject)
    (hg : s.grade ∈ ["Ex", "A", "B", "C", "D", "E", "F"])
    (hc : (parseFloat s.credits).gt0 = true) :
    s.valid = true := by
  obtain ⟨hne, p, hp, _⟩ := gradeMapping_of_mem s.grade hg
  have hcne : s.credits ≠ "" := by
    intro h
    rw [h, parseFloat_empty] at hc
    exact absurd hc (by decide)
  simp [Subject.valid, hne, hcne, hp, hc]

/-! ## Operations that are exact -/

namespace JSNum

theorem lt_of_pow2_lt_pow2 {a b : ℤ} (h : pow2 a < pow2 b) : a < b := by
  by_contra hba
  exact absurd (pow2_le_pow2 (not_lt.mp hba)) (not_le.mpr h)

theorem roundHalfEven_natCast (N : ℕ) : roundHalfEven (N : ℚ) = N := by
  unfold roundHalfEven
  have hfloor : ⌊(N : ℚ)⌋ = (N : ℤ) := Int.floor_natCast N
  simp only [hfloor]
  have h0 : ((N : ℚ) - ((N : ℤ) : ℚ)) = 0 := by push_cast; ring
  rw [h0]
  norm_num

/-- A positive half-integer below `2^52` is a binary64 value: rounding leaves
it as it is. -/
theorem roundPos_half (k : ℕ) (hk0 : 0 < k) (hk : k < 2 ^ 53) :
    roundPos ((k : ℚ) / 2) = fin ((k : ℚ) / 2) := by
  have hkq : (0 : ℚ) < (k : ℚ) := by exact_mod_cast hk0
  have hx : (0 : ℚ) < (k : ℚ) / 2 := by positivity
  have hlow : pow2 (-1) ≤ (k : ℚ) / 2 := by
    have h1 : (1 : ℚ) ≤ (k : ℚ) := by exact_mod_cast hk0
    have : pow2 (-1) = 1 / 2 := by rw [pow2_eq_zpow]; norm_num
    rw [this]
    linarith
  have hhigh : (k : ℚ) / 2 < pow2 52 := by
    have h1 : (k : ℚ) < 2 ^ 53 := by exact_mod_cast hk
    have : pow2 52 = 2 ^ 52 := by rw [pow2_eq_zpow]; norm_num
    rw [this]
    linarith
  have he1 : -1 ≤ floorLog2 ((k : ℚ) / 2) := by
    have := lt_of_pow2_lt_pow2 (lt_of_le_of_lt hlow (lt_pow2_floorLog2_succ _ hx))
    omega
  have he2 : floorLog2 ((k : ℚ) / 2) ≤ 51 := by
    have := lt_of_pow2_lt_pow2 (lt_of_le_of_lt (pow2_floorLog2_le _ hx) hhigh)
    omega
  obtain ⟨j, hj⟩ : ∃ j : ℕ, floorLog2 ((k : ℚ) / 2) - 52 = -((j : ℤ) + 1) :=
    ⟨(51 - floorLog2 ((k : ℚ) / 2)).toNat, by
      rw [Int.toNat_of_nonneg (by omega)]; ring⟩
  have hulp : pow2 (floorLog2 ((k : ℚ) / 2) - 52) = 1 / (2 * 2 ^ j) := by
    rw [hj, pow2_eq_zpow, zpow_neg, one_div]
    congr 1
    rw [show ((j : ℤ) + 1) = ((j + 1 : ℕ) : ℤ) by push_cast; ring, zpow_natCast, pow_succ]
    ring
  have hquot : (k : ℚ) / 2 / pow2 (floorLog2 ((k : ℚ) / 2) - 52) = ((k * 2 ^ j : ℕ) : ℚ) := by
    rw [hulp]
    push_cast
    field_simp
    ring
  unfold roundPos
  simp only [max_eq_left (by omega : (-1022 : ℤ) ≤ floorLog2 ((k : ℚ) / 2))]
  rw [hquot, roundHalfEven_natCast]
  have hv : (((k * 2 ^ j : ℕ) : ℤ) : ℚ) * pow2 (floorLog2 ((k : ℚ) / 2) - 52) = (k : ℚ) / 2 := by
    rw [hulp]
    push_cast
    field_simp
    ring
  rw [hv]
  have hfin : ¬ pow2 1024 ≤ (k : ℚ) / 2 := by
    have : pow2 52 ≤ pow2 1024 := pow2_le_pow2 (by decide)
    exact not_le.mpr (lt_of_lt_of_le hhigh this)
  rw [if_neg hfin]

theorem round64_half (k : ℕ) (hk : k < 2 ^ 53) :
    round64 ((k : ℚ) / 2) = fin ((k : ℚ) / 2) := by
  rcases Nat.eq_zero_or_pos k with rfl | hk0
  · simp [round64]
  · have hx : (0 : ℚ) < (k : ℚ) / 2 := by
      have : (0 : ℚ) < (k : ℚ) := by exact_mod_cast hk0
      positivity
    unfold round64
    rw [if_neg (ne_of_gt hx), if_neg (not_lt.mpr (le_of_lt hx))]
    exact roundPos_half k hk0 hk

theorem add_half (a b : ℕ) (h : a + b < 2 ^ 53) :
    (fin ((a : ℚ) / 2)).add (fin ((b : ℚ) / 2)) = fin (((a + b : ℕ) : ℚ) / 2) := by
  show round64 ((a : ℚ) / 2 + (b : ℚ) / 2) = _
  rw [show (a : ℚ) / 2 + (b : ℚ) / 2 = ((a + b : ℕ) : ℚ) / 2 by push_cast; ring]
  exact round64_half _ h

theorem mul_half (p k : ℕ) (h : p * k < 2 ^ 53) :
    (fin (p : ℚ)).mul (fin ((k : ℚ) / 2)) = fin (((p * k : ℕ) : ℚ) / 2) := by
  show round64 ((p : ℚ) * ((k : ℚ) / 2)) = _
  rw [show (p : ℚ) * ((k : ℚ) / 2) = ((p * k : ℕ) : ℚ) / 2 by push_cast; ring]
  exact round64_half _ h

end JSNum

theorem foldl_add_half (ks : List ℕ) (a : ℕ) (h : a + ks.sum < 2 ^ 53) :
    (ks.map fun (k : ℕ) => JSNum.fin ((k : ℚ) / 2)).foldl JSNum.add (JSNum.fin ((a : ℚ) / 2)) =
      JSNum.fin (((a + ks.sum : ℕ) : ℚ) / 2) := by
  induction ks generalizing a with
  | nil => simp
  | cons k rest ih =>
    simp only [List.map_cons, List.foldl_cons, List.sum_cons] at h ⊢
    rw [JSNum.add_half a k (by omega), ih (a + k) (by omega)]
    congr 3
    omega

theorem jsSum_half (ks : List ℕ) (h : ks.sum < 2 ^ 53) :
    jsSum (ks.map fun (k : ℕ) => JSNum.fin ((k : ℚ) / 2)) = JSNum.fin ((ks.sum : ℚ) / 2) := by
  have := foldl_add_half ks 0 (by omega)
  simp only [Nat.cast_zero, zero_div, Nat.zero_add] at this
  exact this

theorem point_natCast (g : String) : ∃ p : ℕ, p ≤ 10 ∧ point g = (p : ℚ) := by
  unfold point
  split_ifs
  exacts [⟨10, by norm_num, by norm_num⟩, ⟨9, by norm_num, by norm_num⟩,
    ⟨8, by norm_num, by norm_num⟩, ⟨7, by norm_num, by norm_num⟩,
    ⟨6, by norm_num, by norm_num⟩, ⟨5, by norm_num, by norm_num⟩,
    ⟨0, by norm_num, by norm_num⟩]

theorem mem_le_sum (l : List ℕ) (x : ℕ) (h : x ∈ l) : x ≤ l.sum := by
  induction l with
  | nil => exact absurd h (List.not_mem_nil _)
  | cons y rest ih =>
    rw [List.sum_cons]
    rcases List.mem_cons.mp h with rfl | hx
    · omega
    · have := ih hx
      omega

theorem sum_map_half {α : Type} (l : List α) (f : α → ℚ) (g : α → ℕ)
    (h : ∀ x ∈ l, f x = (g x : ℚ) / 2) :
    (l.map f).sum = (((l.map g).sum : ℕ) : ℚ) / 2 := by
  induction l with
  | nil => simp
  | cons x rest ih =>
    simp only [List.map_cons, List.sum_cons]
    rw [h x (List.mem_cons_self _ _), ih (fun y hy => h y (List.mem_cons_of_mem _ hy))]
    push_cast
    ring

/-- When the credits of every non-excluded subject are a positive multiple of
one half and twenty times their sum stays below `2^53`, every product and
partial sum of the binary64 mean is exact: the binary64 mean is a finite
value within `2^-53` of the size of the exact mean. -/
theorem binary64Mean_near_exactMean (subjects : List Subject)
    (hsome : ∃ s ∈ subjects, s.excluded = false)
    (hpos : ∀ s ∈ subjects, s.excluded = false → (parseFloat s.credits).gt0 = true)
    (hhalf : ∀ s ∈ subjects, s.excluded = false →
      ∃ k : ℕ, parseFloat s.credits = JSNum.fin ((k : ℚ) / 2))
    (hbound : 20 * ((subjects.filter fun s => !s.excluded).map creditValue).sum < 2 ^ 53) :
    ∃ v : ℚ, binary64Mean subjects = JSNum.fin v ∧
      |v - exactMean subjects| ≤ exactMean subjects * JSNum.pow2 (-53) := by
  have hmem : ∀ s ∈ subjects.filter (fun s => !s.excluded),
      s ∈ subjects ∧ s.excluded = false := by
    intro s hs
    have hm := List.mem_filter.mp hs
    exact ⟨hm.1, by simpa using hm.2⟩
  have hk : ∀ s ∈ subjects.filter (fun s => !s.excluded),
      ∃ k : ℕ, 0 < k ∧ parseFloat s.credits = JSNum.fin ((k : ℚ) / 2) ∧
        creditValue s = (k : ℚ) / 2 ∧ ⌊2 * creditValue s⌋₊ = k := by
    intro s hs
    obtain ⟨hsm, hse⟩ := hmem s hs
    obtain ⟨k, hk⟩ := hhalf s hsm hse
    have hcv : creditValue s = (k : ℚ) / 2 := by simp [creditValue, hk]
    have hfl : ⌊2 * creditValue s⌋₊ = k := by
      rw [hcv, show (2 : ℚ) * ((k : ℚ) / 2) = (k : ℚ) by ring, Nat.floor_natCast]
    have hg := hpos s hsm hse
    rw [hk] at hg
    have hkpos : (0 : ℚ) < (k : ℚ) / 2 := by simpa [JSNum.gt0] using hg
    have hk0 : 0 < k := by
      by_contra h0
      have h00 : k = 0 := by omega
      rw [h00] at hkpos
      simp at hkpos
    exact ⟨k, hk0, hk, hcv, hfl⟩
  have hp : ∀ s : Subject, ∃ p : ℕ, p ≤ 10 ∧ point s.grade = (p : ℚ) ∧
      ⌊point s.grade⌋₊ = p := by
    intro s
    obtain ⟨p, hp10, hp⟩ := point_natCast s.grade
    exact ⟨p, hp10, hp, by rw [hp, Nat.floor_natCast]⟩
  -- the two sums as exact half-integers
  have hC : ((subjects.filter fun s => !s.excluded).map creditValue).sum =
      ((((subjects.filter fun s => !s.excluded).map
        fun s => ⌊2 * creditValue s⌋₊).sum : ℕ) : ℚ) / 2 := by
    apply sum_map_half
    intro s hs
    obtain ⟨k, _, _, hcv, hfl⟩ := hk s hs
    rw [hfl, hcv]
  have hP : ((subjects.filter fun s => !s.excluded).map fun s =>
        point s.grade * creditValue s).sum =
      ((((subjects.filter fun s => !s.excluded).map
        fun s => ⌊point s.grade⌋₊ * ⌊2 * creditValue s⌋₊).sum : ℕ) : ℚ) / 2 := by
    apply sum_map_half
    intro s hs
    obtain ⟨k, _, _, hcv, hfl⟩ := hk s hs
    obtain ⟨p, _, hpq, hpfl⟩ := hp s
    rw [hfl, hpfl, hcv, hpq]
    push_cast
    ring
  generalize hC2 : ((subjects.filter fun s => !s.excluded).map
      fun s => ⌊2 * creditValue s⌋₊).sum = C2 at hC
  generalize hP2 : ((subjects.filter fun s => !s.excluded).map
      fun s => ⌊point s.grade⌋₊ * ⌊2 * creditValue s⌋₊).sum = P2 at hP
  have hC2bound : 10 * C2 < 2 ^ 53 := by
    rw [hC] at hbound
    have h1 : ((10 * C2 : ℕ) : ℚ) < ((2 ^ 53 : ℕ) : ℚ) := by
      push_cast
      linarith
    exact_mod_cast h1
  have hPle : P2 ≤ 10 * C2 := by
    rw [← hP2, ← hC2, ← List.sum_map_mul_left]
    apply List.sum_le_sum
    intro s _
    obtain ⟨p, hp10, _, hpfl⟩ := hp s
    rw [hpfl]
    exact Nat.mul_le_mul_right _ hp10
  have hne : subjects.filter (fun s => !s.excluded) ≠ [] := by
    obtain ⟨s, hs, he⟩ := hsome
    intro h
    have hin : s ∈ subjects.filter (fun s => !s.excluded) :=
      List.mem_filter.mpr ⟨hs, by simp [he]⟩
    rw [h] at hin
    exact List.not_mem_nil _ hin
  have hC2pos : 0 < C2 := by
    obtain ⟨s, hs⟩ := List.exists_mem_of_ne_nil _ hne
    obtain ⟨k, hk0, _, _, hfl⟩ := hk s hs
    have hle : ⌊2 * creditValue s⌋₊ ≤ C2 := by
      rw [← hC2]
      exact mem_le_sum _ _ (List.mem_map_of_mem _ hs)
    omega
  -- the binary64 sums are those half-integers
  have hcredits : jsSum ((subjects.filter fun s => !s.excluded).map fun s =>
      parseFloat s.credits) = JSNum.fin ((C2 : ℚ) / 2) := by
    have hlist : ((subjects.filter fun s => !s.excluded).map fun s => parseFloat s.credits) =
        (((subjects.filter fun s => !s.excluded).map fun s => ⌊2 * creditValue s⌋₊).map
          fun (k : ℕ) => JSNum.fin ((k : ℚ) / 2)) := by
      rw [List.map_map]
      apply List.map_congr_left
      intro s hs
      obtain ⟨k, _, hpk, _, hfl⟩ := hk s hs
      simp only [Function.comp, hfl, hpk]
    rw [hlist, jsSum_half _ (by rw [hC2]; omega), hC2]
  have hproducts : jsSum ((subjects.filter fun s => !s.excluded).map fun s =>
      (JSNum.fin (point s.grade)).mul (parseFloat s.credits)) =
        JSNum.fin ((P2 : ℚ) / 2) := by
    have hlist : ((subjects.filter fun s => !s.excluded).map fun s =>
          (JSNum.fin (point s.grade)).mul (parseFloat s.credits)) =
        (((subjects.filter fun s => !s.excluded).map
          fun s => ⌊point s.grade⌋₊ * ⌊2 * creditValue s⌋₊).map
          fun (k : ℕ) => JSNum.fin ((k : ℚ) / 2)) := by
      rw [List.map_map]
      apply List.map_congr_left
      intro s hs
      obtain ⟨k, _, hpk, _, hfl⟩ := hk s hs
      obtain ⟨p, hp10, hpq, hpfl⟩ := hp s
      have hkle : k ≤ C2 := by
        rw [← hC2, ← hfl]
        exact mem_le_sum _ _ (List.mem_map_of_mem _ hs)
      have hpk53 : p * k < 2 ^ 53 := by
        have : p * k ≤ 10 * C2 := Nat.mul_le_mul hp10 hkle
        omega
      simp only [Function.comp, hfl, hpfl, hpk, hpq]
      exact JSNum.mul_half p k hpk53
    rw [hlist, jsSum_half _ (by rw [hP2]; omega), hP2]
  have hCq : (0 : ℚ) < (C2 : ℚ) / 2 := by
    have : (0 : ℚ) < (C2 : ℚ) := by exact_mod_cast hC2pos
    positivity
  have hmean : binary64Mean subjects =
      JSNum.round64 ((P2 : ℚ) / 2 / ((C2 : ℚ) / 2)) := by
    unfold binary64Mean
    rw [hproducts, hcredits]
    show (if (C2 : ℚ) / 2 = 0 then _ else _) = _
    rw [if_neg (ne_of_gt hCq)]
  have hexact : exactMean subjects = (P2 : ℚ) / 2 / ((C2 : ℚ) / 2) := by
    unfold exactMean
    rw [hP, hC]
  rw [hmean, hexact]
  rcases Nat.eq_zero_or_pos P2 with hP0 | hPpos
  · refine ⟨0, ?_, ?_⟩
    · rw [hP0]
      simp [JSNum.round64]
    · rw [hP0]
      simp
  · have hq : (P2 : ℚ) / 2 / ((C2 : ℚ) / 2) = (P2 : ℚ) / (C2 : ℚ) := by
      field_simp
    have hC2q : (0 : ℚ) < (C2 : ℚ) := by exact_mod_cast hC2pos
    have hP2q : (1 : ℚ) ≤ (P2 : ℚ) := by exact_mod_cast hPpos
    have hC2lt : (C2 : ℚ) < 2 ^ 53 := by
      have : C2 < 2 ^ 53 := by omega
      exact_mod_cast this
    have hlow : JSNum.pow2 (-1022) ≤ (P2 : ℚ) / (C2 : ℚ) := by
      have h1 : JSNum.pow2 (-1022) ≤ JSNum.pow2 (-53) := JSNum.pow2_le_pow2 (by decide)
      have h2 : JSNum.pow2 (-53) = 1 / 2 ^ 53 := by
        rw [JSNum.pow2_eq_zpow]
        norm_num
      have h3 : (1 : ℚ) / 2 ^ 53 ≤ (P2 : ℚ) / (C2 : ℚ) := by
        rw [div_le_div_iff₀ (by positivity) hC2q]
        nlinarith
      linarith
    have hhigh : (P2 : ℚ) / (C2 : ℚ) ≤ JSNum.pow2 1023 := by
      have h1 : (P2 : ℚ) / (C2 : ℚ) ≤ 10 := by
        rw [div_le_iff₀ hC2q]
        exact_mod_cast hPle
      have h2 : JSNum.pow2 4 ≤ JSNum.pow2 1023 := JSNum.pow2_le_pow2 (by decide)
      have h3 : JSNum.pow2 4 = 16 := by
        rw [JSNum.pow2_eq_zpow]
        norm_num
      linarith
    rw [hq]
    exact JSNum.round64_near _ hlow hhigh

/-- C1 as stated fails.  For grade A with 1 credit and grade B with
7.000000000000001 credits (none excluded, grades in the table, credits
greater than zero) the exact mean Σ(point × credits) / Σ(credits) lies below
8.125 and rounds to "8.12", but the handler sets cgpa "8.13".  For grade Ex
with 1e308 credits the exact mean is 10, rendered "10.00", but the handler
sets cgpa "Infinity". -/
theorem weighted_mean_counterexample :
    (∀ s ∈ subjectsNearTie, s.excluded = false ∧
        s.grade ∈ ["Ex", "A", "B", "C", "D", "E", "F"] ∧
        (parseFloat s.credits).gt0 = true) ∧
      exactMean subjectsNearTie < 8125 / 1000 ∧
      (JSNum.fin (exactMean subjectsNearTie)).toFixed2 = "8.12" ∧
      calculateCGPA subjectsNearTie = Outcome.result "8.13" "77.19" ∧
      (∀ s ∈ subjectsOverflow, s.excluded = false ∧
        s.grade ∈ ["Ex", "A", "B", "C", "D", "E", "F"] ∧
        (parseFloat s.credits).gt0 = true) ∧
      exactMean subjectsOverflow = 10 ∧
      (JSNum.fin (exactMean subjectsOverflow)).toFixed2 = "10.00" ∧
      calculateCGPA subjectsOverflow = Outcome.result "Infinity" "Infinity" := by
  decide!

/-- C1, amended. When at least one subject is not excluded and every
non-excluded subject has a grade among Ex, A, B, C, D, E, F and credits that
parse to a value greater than zero, `calculateCGPA` succeeds.  Take the
weighted mean evaluated in binary64 arithmetic: the sum of
point(grade) × credits divided by the sum of credits, both over the
non-excluded subjects in list order, each product, partial sum and the
quotient rounded to binary64.  Whenever that binary64 mean is a finite value,
it is not negative and the cgpa set is the rendering of the number of
hundredths nearest to it (the larger on a tie), which is within 1/200 of it.
When the credits of every non-excluded subject are a multiple of one half
and twenty times their sum is below `2^53`, the binary64 mean is finite and
differs from the exact mean Σ(point × credits) / Σ(credits) by at most the
exact mean divided by `2^53`. -/
theorem calculateCGPA_weighted_mean (subjects : List Subject)
    (hsome : ∃ s ∈ subjects, s.excluded = false)
    (hvalid : ∀ s ∈ subjects, s.excluded = false →
      s.grade ∈ ["Ex", "A", "B", "C", "D", "E", "F"] ∧
        (parseFloat s.credits).gt0 = true) :
    (∃ cgpa percentage, calculateCGPA subjects = Outcome.result cgpa percentage) ∧
      (∀ q : ℚ, binary64Mean subjects = JSNum.fin q →
        0 ≤ q ∧
          (∃ percentage, calculateCGPA subjects =
            Outcome.result (JSNum.fixed2Digits (JSNum.hundredths q)) percentage) ∧
          |(JSNum.hundredths q : ℚ) / 100 - q| ≤ 1 / 200) ∧
      ((∀ s ∈ subjects, s.excluded = false →
          ∃ k : ℕ, parseFloat s.credits = JSNum.fin ((k : ℚ) / 2)) →
        20 * ((subjects.filter fun s => !s.excluded).map creditValue).sum < 2 ^ 53 →
        ∃ v : ℚ, binary64Mean subjects = JSNum.fin v ∧
          |v - exactMean subjects| ≤ exactMean subjects / 2 ^ 53) := by
  have hinc : ∀ s ∈ included subjects,
      s.grade ∈ ["Ex", "A", "B", "C", "D", "E", "F"] ∧
        (parseFloat s.credits).gt0 = true := by
    intro s hs
    have hm := List.mem_filter.mp hs
    exact hvalid s hm.1 (by simpa using hm.2)
  have hne : included subjects ≠ [] := by
    obtain ⟨s, hs, he⟩ := hsome
    intro h
    have : s ∈ included subjects := List.mem_filter.mpr ⟨hs, by simp [he]⟩
    rw [h] at this
    exact List.not_mem_nil _ this
  have hall : (included subjects).all Subject.valid = true := by
    rw [List.all_eq_true]
    intro s hs
    exact valid_of_grade_credits s (hinc s hs).1 (hinc s hs).2
  have hpoint : ∀ s ∈ included subjects, s.gradePoint = JSNum.fin (point s.grade) := by
    intro s hs
    obtain ⟨_, p, hp, hpt⟩ := gradeMapping_of_mem s.grade (hinc s hs).1
    simp [Subject.gradePoint, hp, hpt, GradeEntry.toNumber]
  have hmean : unroundedCGPA subjects = binary64Mean subjects := by
    unfold unroundedCGPA binary64Mean
    congr 2
    apply List.map_congr_left
    intro s hs
    rw [hpoint s hs]
  have hnn : (binary64Mean subjects).NotNegative := by
    unfold binary64Mean
    apply JSNum.NotNegative.div
    · apply notNegative_jsSum
      intro x hx
      obtain ⟨s, hs, rfl⟩ := List.mem_map.mp hx
      exact JSNum.NotNegative.mul_fin (point_nonneg _)
        (JSNum.ZeroOrPositive.notNegative (Or.inr (parseFloat_gt0 _ (hinc s hs).2)))
    · apply positive_jsSum
      · simpa [included] using hne
      · intro x hx
        obtain ⟨s, hs, rfl⟩ := List.mem_map.mp hx
        exact parseFloat_gt0 _ (hinc s hs).2
  have hresult : calculateCGPA subjects =
      Outcome.result (binary64Mean subjects).toFixed2
        ((binary64Mean subjects).mul (JSNum.fin (19 / 2))).toFixed2 := by
    rw [calculateCGPA_eq, if_pos ⟨hall, hne⟩, hmean]
  refine ⟨⟨_, _, hresult⟩, ?_, ?_⟩
  · intro q hq
    rw [hq] at hnn
    refine ⟨hnn, ⟨((JSNum.fin q).mul (JSNum.fin (19 / 2))).toFixed2, ?_⟩,
      hundredths_near q hnn⟩
    rw [hresult, hq, toFixed2_of_nonneg q hnn]
  · intro hhalf hbound
    obtain ⟨v, hv, hnear⟩ := binary64Mean_near_exactMean subjects hsome
      (fun s hs he => (hvalid s hs he).2) hhalf hbound
    refine ⟨v, hv, ?_⟩
    have hpow : JSNum.pow2 (-53) = 1 / 2 ^ 53 := by
      rw [JSNum.pow2_eq_zpow]
      norm_num
    rw [hpow] at hnear
    rw [div_eq_mul_one_div]
    exact hnear

/-- C1, amended, at the subjects A with 4 credits and B with 3 credits: the
binary64 mean is the binary64 value nearest to 60/7 and the cgpa set is
"8.57". -/
theorem calculateCGPA_weighted_mean_witness :
    (∃ s ∈ subjectsAB, s.excluded = false) ∧
      binary64Mean subjectsAB =
        JSNum.fin (4825285315039817 / 562949953421312) ∧
      exactMean subjectsAB = 60 / 7 ∧
      (∃ percentage, calculateCGPA subjectsAB = Outcome.result "8.57" percentage) ∧
      ∃ v : ℚ, binary64Mean subjectsAB = JSNum.fin v ∧
        |v - exactMean subjectsAB| ≤ exactMean subjectsAB / 2 ^ 53 := by
  have h := ((calculateCGPA_weighted_mean subjectsAB (by decide) (by decide!)).2.1
    (4825285315039817 / 562949953421312) (by decide!)).2.1
  have hval : JSNum.fixed2Digits
      (JSNum.hundredths (4825285315039817 / 562949953421312)) = "8.57" := by decide!
  rw [hval] at h
  have hhalf : ∀ s ∈ subjectsAB, s.excluded = false →
      ∃ k : ℕ, parseFloat s.credits = JSNum.fin ((k : ℚ) / 2) := by
    intro s hs _
    simp only [subjectsAB, List.mem_cons, List.mem_singleton, List.not_mem_nil,
      or_false] at hs
    rcases hs with rfl | rfl
    · exact ⟨8, by decide!⟩
    · exact ⟨6, by decide!⟩
  exact ⟨by decide, by decide!, by decide!, h,
    (calculateCGPA_weighted_mean subjectsAB (by decide) (by decide!)).2.2 hhalf
      (by decide!)⟩

/-- A tie between two hundredths: the exact mean of `subjectsTie` is
100.5/100 = 1.005, the binary64 quotient lies just below it, and the cgpa
set is "1.00". -/
theorem calculateCGPA_tie :
    calculateCGPA subjectsTie = Outcome.result "1.00" "9.55" ∧
      binary64Mean subjectsTie =
        JSNum.fin (1131529406376837 / 1125899906842624) := by
  decide!

/-! ## Validation failure -/

theorem valid_eq_false_iff (s : Subject) :
    s.valid = false ↔
      (s.grade = "" ∨ s.credits = "" ∨ gradeMapping s.grade = none ∨
        (parseFloat s.credits).gt0 = false) := by
  unfold Subject.valid
  by_cases hg : s.grade = "" <;> by_cases hc : s.credits = "" <;>
    cases hm : gradeMapping s.grade <;>
    cases hp : (parseFloat s.credits).gt0 <;> simp [hg, hc]

theorem included_eq_nil_iff (subjects : List Subject) :
    included subjects = [] ↔ ∀ s ∈ subjects, s.excluded = true := by
  simp [included, List.filter_eq_nil_iff]

theorem not_all_valid_iff (subjects : List Subject) :
    ¬ (included subjects).all Subject.valid = true ↔
      ∃ s ∈ subjects, s.excluded = false ∧ s.valid = false := by
  rw [List.all_eq_true]
  constructor
  · intro h
    push_neg at h
    obtain ⟨s, hs, hv⟩ := h
    have hm := List.mem_filter.mp hs
    exact ⟨s, hm.1, by simpa using hm.2, by simpa using hv⟩
  · rintro ⟨s, hs, he, hv⟩ h
    have := h s (List.mem_filter.mpr ⟨hs, by simp [he]⟩)
    rw [hv] at this
    exact Bool.false_ne_true this

theorem calculateCGPA_alert_iff_aux (subjects : List Subject) :
    (∃ message, calculateCGPA subjects = Outcome.alert message) ↔
      ¬ ((included subjects).all Subject.valid = true ∧ included subjects ≠ []) := by
  rw [calculateCGPA_eq]
  split
  · rename_i h
    simp [h]
  · rename_i h
    simp only [h, not_false_eq_true, iff_true]
    exact ⟨_, rfl⟩

theorem gradeMapping_eq_none_iff (g : String) :
    gradeMapping g = none ↔
      g ∉ ["Ex", "A", "B", "C", "D", "E", "F"] ∧ g ∉ objectPrototypeKeys := by
  unfold gradeMapping
  simp only [List.mem_cons, List.mem_singleton, List.not_mem_nil, or_false, not_or]
  split_ifs <;> simp_all

/-- What the validation of `calculateCGPA` does: the alert is raised, instead
of a result being set, exactly when every subject is excluded (so also for
the empty list) or some non-excluded subject has an empty grade, empty
credits, a grade that is neither one of Ex, A, B, C, D, E, F nor a property
name inherited from `Object.prototype`, or credits that do not parse to a
value greater than zero; it never does both, and the empty list fails. -/
theorem validation_alert_iff (subjects : List Subject) :
    ((∃ message, calculateCGPA subjects = Outcome.alert message) ↔
        ((∀ s ∈ subjects, s.excluded = true) ∨
          ∃ s ∈ subjects, s.excluded = false ∧
            (s.grade = "" ∨ s.credits = "" ∨
              (s.grade ∉ ["Ex", "A", "B", "C", "D", "E", "F"] ∧
                s.grade ∉ objectPrototypeKeys) ∨
              (parseFloat s.credits).gt0 = false))) ∧
      ((∃ cgpa percentage, calculateCGPA subjects = Outcome.result cgpa percentage) ↔
        ¬ ∃ message, calculateCGPA subjects = Outcome.alert message) ∧
      calculateCGPA [] = Outcome.alert validationMessage := by
  refine ⟨?_, ?_, by decide⟩
  · rw [calculateCGPA_alert_iff_aux, not_and_or, not_not, included_eq_nil_iff,
      not_all_valid_iff, or_comm]
    simp only [valid_eq_false_iff, gradeMapping_eq_none_iff]
  · cases h : calculateCGPA subjects with
    | result c p => simp
    | alert m => simp

/-- C2 fails on the code.  The claim: `calculateCGPA` signals a validation
failure whenever some non-excluded subject has a grade outside the grade
table.  On one non-excluded subject with grade "constructor", which is not in
the table, and credits "3" the handler raises no alert and sets cgpa "NaN"
and percentage "NaN": the lookup finds the member every object inherits, and
that member is not `undefined`. -/
theorem inherited_grade_accepted :
    (∃ s ∈ subjectsInherited, s.excluded = false ∧
        s.grade ∉ ["Ex", "A", "B", "C", "D", "E", "F"]) ∧
      gradeMapping "constructor" = some GradeEntry.inherited ∧
      calculateCGPA subjectsInherited = Outcome.result "NaN" "NaN" ∧
      ¬ ∃ message, calculateCGPA subjectsInherited = Outcome.alert message := by
  refine ⟨by decide, by decide, by decide!, ?_⟩
  rintro ⟨m, hm⟩
  have h : calculateCGPA subjectsInherited = Outcome.result "NaN" "NaN" := by decide!
  rw [h] at hm
  exact Outcome.noConfusion hm

/-! ## Excluded subjects -/

theorem included_included (subjects : List Subject) :
    included (included subjects) = included subjects := by
  simp [included]

/-- C3. The outcome of `calculateCGPA` is its outcome on the list with the
excluded subjects removed, whatever their fields hold; one excluded subject
with empty grade and credits plus one included subject with grade F and 5
credits gives cgpa "0.00" and percentage "0.00". -/
theorem calculateCGPA_ignores_excluded (subjects : List Subject) :
    calculateCGPA subjects =
        calculateCGPA (subjects.filter fun s => !s.excluded) ∧
      calculateCGPA subjectsExcludedF = Outcome.result "0.00" "0.00" := by
  refine ⟨?_, by decide!⟩
  have h := included_included subjects
  rw [calculateCGPA_eq subjects, calculateCGPA_eq (subjects.filter fun s => !s.excluded)]
  unfold unroundedCGPA
  unfold included at h ⊢
  rw [h]

/-! ## The percentage -/

/-- C4 as stated fails: for grade A with 4 credits and grade B with 3 credits
the handler sets cgpa "8.57" and percentage "81.43", whereas the displayed
cgpa 8.57 times 9.5, rounded to two decimals, is "81.42". -/
theorem percentage_from_rounded_counterexample :
    calculateCGPA subjectsAB = Outcome.result "8.57" "81.43" ∧
      ((parseFloat "8.57").mul (JSNum.fin (19 / 2))).toFixed2 = "81.42" ∧
      calculateCGPA subjectsAB ≠ Outcome.result "8.57" "81.42" := by
  decide!

/-- C4, amended. Whenever `calculateCGPA` succeeds, the cgpa is `toFixed(2)` of
the unrounded quotient and the percentage is `toFixed(2)` of that same
unrounded quotient times 9.5. -/
theorem percentage_from_unrounded (subjects : List Subject)
    (cgpa percentage : String)
    (h : calculateCGPA subjects = Outcome.result cgpa percentage) :
    cgpa = (unroundedCGPA subjects).toFixed2 ∧
      percentage =
        ((unroundedCGPA subjects).mul (JSNum.fin (19 / 2))).toFixed2 := by
  rw [calculateCGPA_eq] at h
  split at h
  · injection h with h1 h2
    exact ⟨h1.symm, h2.symm⟩
  · exact Outcome.noConfusion h

/-- C4, amended, at grade A with 4 credits and grade B with 3 credits: the
unrounded quotient is the binary64 value nearest to 60/7, rendered "8.57",
and 9.5 times it is rendered "81.43". -/
theorem percentage_from_unrounded_witness :
    unroundedCGPA subjectsAB = JSNum.fin (4825285315039817 / 562949953421312) ∧
      "8.57" = (unroundedCGPA subjectsAB).toFixed2 ∧
      "81.43" = ((unroundedCGPA subjectsAB).mul (JSNum.fin (19 / 2))).toFixed2 :=
  ⟨by decide!, percentage_from_unrounded subjectsAB "8.57" "81.43" (by decide!)⟩

/-! ## Save and load -/

theorem step_cgpaData_of_isEdit (s : AppState) (e : Event)
    (h : e.isEdit = true) : (step s e).cgpaData = s.cgpaData := by
  cases e with
  | setSubjectCount num =>
    simp only [step, handleNumSubjectsChange]
    split
    · rfl
    · cases num with
      | none => rfl
      | some n =>
        simp only
        split <;> rfl
  | updateSubject index fv => rfl
  | calculate =>
    simp only [step, clickCalculate]
    split <;> rfl
  | reset => rfl
  | editName value => rfl
  | save timestamp => exact absurd h (by simp [Event.isEdit])
  | load => exact absurd h (by simp [Event.isEdit])

theorem run_cgpaData_of_isEdit (edits : List Event) (s : AppState)
    (h : ∀ e ∈ edits, e.isEdit = true) : (run s edits).cgpaData = s.cgpaData := by
  induction edits generalizing s with
  | nil => rfl
  | cons e rest ih =>
    unfold run at ih ⊢
    rw [List.foldl_cons, ih (step s e) (fun x hx => h x (List.mem_cons_of_mem _ hx)),
      step_cgpaData_of_isEdit s e (h e (List.mem_cons_self _ _))]

/-- C5. A save, then any sequence of subject-count changes, subject edits,
calculations, resets and name edits, then a load: the load raises no alert and
the student name, the subjects, the cgpa and the percentage are those of the
state that was saved, whatever the edits left in the state. -/
theorem load_after_save (s : AppState) (timestamp : String)
    (edits : List Event) (hedits : ∀ e ∈ edits, e.isEdit = true) :
    (loadFromLocalStorage (run (saveToLocalStorage s timestamp).1 edits)).2 = none ∧
      (loadFromLocalStorage (run (saveToLocalStorage s timestamp).1 edits)).1.studentName =
        s.studentName ∧
      (loadFromLocalStorage (run (saveToLocalStorage s timestamp).1 edits)).1.subjects =
        s.subjects ∧
      (loadFromLocalStorage (run (saveToLocalStorage s timestamp).1 edits)).1.cgpa =
        s.cgpa ∧
      (loadFromLocalStorage (run (saveToLocalStorage s timestamp).1 edits)).1.percentage =
        s.percentage := by
  have h : (run (saveToLocalStorage s timestamp).1 edits).cgpaData =
      some { numSubjects := s.numSubjects.throughJSON, subjects := s.subjects,
             cgpa := s.cgpa, percentage := s.percentage,
             studentName := s.studentName, timestamp := timestamp } := by
    rw [run_cgpaData_of_isEdit edits (saveToLocalStorage s timestamp).1 hedits]
    rfl
  unfold loadFromLocalStorage
  rw [h]
  refine ⟨rfl, ?_, rfl, rfl, rfl⟩
  by_cases hn : s.studentName = ""
  · simp [hn]
  · simp [hn]

/-- C5 at a state with two subjects and a result, with five edits between the
save and the load. -/
theorem load_after_save_witness :
    (∀ e ∈ editsAfterSave, e.isEdit = true) ∧
      (run (saveToLocalStorage stateAB "t").1 editsAfterSave).subjects = [] ∧
      (loadFromLocalStorage
        (run (saveToLocalStorage stateAB "t").1 editsAfterSave)).1.subjects = subjectsAB ∧
      (loadFromLocalStorage
        (run (saveToLocalStorage stateAB "t").1 editsAfterSave)).1.cgpa = some "8.57" :=
  ⟨by decide, by decide,
    (load_after_save stateAB "t" editsAfterSave (by decide)).2.2.1,
    (load_after_save stateAB "t" editsAfterSave (by decide)).2.2.2.1⟩

/-! ## Changing the subject count -/

theorem arrayFromThrows_of_le (n : ℤ) (h : n ≤ maxArrayLength) :
    arrayFromThrows (some n) = false := by
  simp [arrayFromThrows, not_lt.mpr h]

theorem arrayFromThrows_of_gt (n : ℤ) (h : maxArrayLength < n) :
    arrayFromThrows (some n) = true := by
  have hpos : 0 < n := lt_trans (by decide) h
  simp [arrayFromThrows, h, hpos]

theorem subjects_of_pos (s : AppState) (n : ℤ) (h : 0 < n) (hmax : n ≤ maxArrayLength) :
    (handleNumSubjectsChange s (some n)).1.subjects =
      (List.range n.toNat).map newSubject := by
  simp [handleNumSubjectsChange, arrayFromThrows_of_le n hmax, h]

theorem subjects_of_nonpos (s : AppState) (n : ℤ) (h : n ≤ 0) :
    (handleNumSubjectsChange s (some n)).1.subjects = [] := by
  have hmax : n ≤ maxArrayLength := le_trans h (by decide)
  simp [handleNumSubjectsChange, arrayFromThrows_of_le n hmax, not_lt.mpr h]

/-- Above the largest array length the handler throws after `setNumSubjects`
only: every other cell keeps its value. -/
theorem handleNumSubjectsChange_of_gt (s : AppState) (n : ℤ) (h : maxArrayLength < n) :
    handleNumSubjectsChange s (some n) =
      ({ s with numSubjects := NumSubjects.num n }, some rangeError) := by
  simp [handleNumSubjectsChange, arrayFromThrows_of_gt n h, NumSubjects.ofParseInt]

/-- C6 as stated fails: for `n = 2^32`, from a state that holds two subjects,
the handler throws a `RangeError` and the list still holds those two
subjects, not `n` fresh ones. -/
theorem handleNumSubjectsChange_counterexample :
    (handleNumSubjectsChange stateAB (some 4294967296)).2 = some rangeError ∧
      (handleNumSubjectsChange stateAB (some 4294967296)).1.subjects = subjectsAB ∧
      ((handleNumSubjectsChange stateAB (some 4294967296)).1.subjects.length : ℤ) ≠
        4294967296 := by
  decide

/-- C6, amended. After `handleNumSubjectsChange` with an integer `n` that is
at most the largest array length `2^32 - 1`, no exception is thrown and: if
`n > 0` the list has exactly `n` subjects and its k-th entry (k = 1..n) has
name "Subject k", empty grade, empty credits and is not excluded; if `n ≤ 0`
the list is empty; in both cases the list does not depend on the state
before. -/
theorem handleNumSubjectsChange_subjects (s s' : AppState) (n : ℤ)
    (hmax : n ≤ maxArrayLength) :
    (handleNumSubjectsChange s (some n)).2 = none ∧
      (0 < n →
        ((handleNumSubjectsChange s (some n)).1.subjects.length : ℤ) = n ∧
          ∀ k : ℕ, 1 ≤ k → (k : ℤ) ≤ n →
            ∃ subj, (handleNumSubjectsChange s (some n)).1.subjects[k - 1]? = some subj ∧
              subj.name = "Subject " ++ toString k ∧ subj.grade = "" ∧
              subj.credits = "" ∧ subj.excluded = false) ∧
      (n ≤ 0 → (handleNumSubjectsChange s (some n)).1.subjects = []) ∧
      (handleNumSubjectsChange s (some n)).1.subjects =
        (handleNumSubjectsChange s' (some n)).1.subjects := by
  refine ⟨?_, ?_, subjects_of_nonpos s n, ?_⟩
  · simp [handleNumSubjectsChange, arrayFromThrows_of_le n hmax]
  · intro hn
    rw [subjects_of_pos s n hn hmax]
    refine ⟨?_, ?_⟩
    · simp only [List.length_map, List.length_range]
      exact Int.toNat_of_nonneg (le_of_lt hn)
    · intro k hk1 hkn
      have hlt : k - 1 < n.toNat := by omega
      refine ⟨newSubject (k - 1), ?_, ?_, rfl, rfl, rfl⟩
      · rw [List.getElem?_map, List.getElem?_range hlt]
        rfl
      · simp only [newSubject]
        rw [Nat.sub_add_cancel hk1]
  · rcases lt_or_le 0 n with hn | hn
    · rw [subjects_of_pos s n hn hmax, subjects_of_pos s' n hn hmax]
    · rw [subjects_of_nonpos s n hn, subjects_of_nonpos s' n hn]

/-- C6, amended, at `n = 3`, from a state that held two subjects: three
subjects, the second named "Subject 2". -/
theorem handleNumSubjectsChange_subjects_witness :
    (3 : ℤ) ≤ maxArrayLength ∧
      ((handleNumSubjectsChange stateAB (some 3)).1.subjects.length : ℤ) = 3 ∧
      ∃ subj, (handleNumSubjectsChange stateAB (some 3)).1.subjects[2 - 1]? = some subj ∧
        subj.name = "Subject " ++ toString 2 ∧ subj.grade = "" ∧
        subj.credits = "" ∧ subj.excluded = false :=
  ⟨by decide,
    ((handleNumSubjectsChange_subjects stateAB AppState.initial 3 (by decide)).2.1
      (by decide)).1,
    ((handleNumSubjectsChange_subjects stateAB AppState.initial 3 (by decide)).2.1
      (by decide)).2 2 (by decide) (by decide)⟩

/-! ## Clearing the result -/

/-- C8 as stated fails: for `n = 2^32`, from a state that shows cgpa "8.57"
and percentage "81.43", the handler throws before it clears the result, and
both are still present. -/
theorem edits_clear_result_counterexample :
    (handleNumSubjectsChange stateAB (some 4294967296)).2 = some rangeError ∧
      (handleNumSubjectsChange stateAB (some 4294967296)).1.cgpa = some "8.57" ∧
      (handleNumSubjectsChange stateAB (some 4294967296)).1.percentage = some "81.43" := by
  decide

/-- C8, amended. After `handleNumSubjectsChange` with a parsed count that is
`NaN` or an integer of either sign up to the largest array length `2^32 - 1`,
and after `handleSubjectChange` with any index, field and value, both cgpa
and percentage are absent, whatever they were before. -/
theorem edits_clear_result (s : AppState) (num : Option ℤ) (index : ℤ)
    (fv : FieldValue) (hnum : ∀ n, num = some n → n ≤ maxArrayLength) :
    (handleNumSubjectsChange s num).1.cgpa = none ∧
      (handleNumSubjectsChange s num).1.percentage = none ∧
      (handleSubjectChange s index fv).cgpa = none ∧
      (handleSubjectChange s index fv).percentage = none := by
  have hthrow : arrayFromThrows num = false := by
    cases num with
    | none => rfl
    | some n => exact arrayFromThrows_of_le n (hnum n rfl)
  refine ⟨?_, ?_, rfl, rfl⟩
  · simp [handleNumSubjectsChange, hthrow]
  · simp [handleNumSubjectsChange, hthrow]

/-- C8, amended, at a state that shows a result: a count change to 3 and an
edit of a subject name both clear it. -/
theorem edits_clear_result_witness :
    stateAB.cgpa = some "8.57" ∧
      (handleNumSubjectsChange stateAB (some 3)).1.cgpa = none ∧
      (handleNumSubjectsChange stateAB (some 3)).1.percentage = none ∧
      (handleSubjectChange stateAB 0 (FieldValue.name "Algebra")).cgpa = none ∧
      (handleSubjectChange stateAB 0 (FieldValue.name "Algebra")).percentage = none :=
  ⟨rfl, edits_clear_result stateAB (some 3) 0 (FieldValue.name "Algebra")
    (fun n h => by
      have hn : n = 3 := (Option.some.inj h).symm
      rw [hn]
      decide)⟩

/-! ## Editing one subject -/

/-- C9. `handleSubjectChange` keeps the length and the order of the list: the
entry at `index` is the old entry with the given field set to the value and
its other fields as they were, every other entry is the old entry, and for an
index outside the list the list is unchanged. -/
theorem handleSubjectChange_frame (s : AppState) (index : ℤ) (fv : FieldValue) :
    (handleSubjectChange s index fv).subjects.length = s.subjects.length ∧
      (∀ (i : ℕ) (subj : Subject), s.subjects[i]? = some subj →
        (handleSubjectChange s index fv).subjects[i]? =
          some (if (i : ℤ) = index then subj.withField fv else subj)) ∧
      (index < 0 ∨ (s.subjects.length : ℤ) ≤ index →
        (handleSubjectChange s index fv).subjects = s.subjects) ∧
      (∀ (subj : Subject) (v : String) (b : Bool),
        subj.withField (FieldValue.name v) =
            ⟨subj.id, v, subj.grade, subj.credits, subj.excluded⟩ ∧
          subj.withField (FieldValue.grade v) =
            ⟨subj.id, subj.name, v, subj.credits, subj.excluded⟩ ∧
          subj.withField (FieldValue.credits v) =
            ⟨subj.id, subj.name, subj.grade, v, subj.excluded⟩ ∧
          subj.withField (FieldValue.excluded b) =
            ⟨subj.id, subj.name, subj.grade, subj.credits, b⟩) := by
  have hget : ∀ (i : ℕ) (subj : Subject), s.subjects[i]? = some subj →
      (handleSubjectChange s index fv).subjects[i]? =
        some (if (i : ℤ) = index then subj.withField fv else subj) := by
    intro i subj h
    simp only [handleSubjectChange, List.getElem?_mapIdx, h, Option.map_some']
  refine ⟨by simp [handleSubjectChange], hget, ?_, fun _ _ _ => ⟨rfl, rfl, rfl, rfl⟩⟩
  intro hout
  apply List.ext_getElem?
  intro i
  cases hi : s.subjects[i]? with
  | none =>
    have hlen : s.subjects.length ≤ i := List.getElem?_eq_none_iff.mp hi
    apply List.getElem?_eq_none_iff.mpr
    simpa [handleSubjectChange] using hlen
  | some subj =>
    rw [hget i subj hi]
    have hlt : i < s.subjects.length := by
      by_contra hge
      rw [List.getElem?_eq_none_iff.mpr (not_lt.mp hge)] at hi
      exact Option.noConfusion hi
    have hne : ¬ (i : ℤ) = index := by omega
    rw [if_neg hne]

/-- C9 at the two subjects A/4 and B/3: setting the grade at index 1 to "C"
changes that one field, and an edit at index 5 changes nothing. -/
theorem handleSubjectChange_frame_witness :
    (handleSubjectChange stateAB 1 (FieldValue.grade "C")).subjects[1]? =
        some ⟨1, "Subject 2", "C", "3", false⟩ ∧
      (handleSubjectChange stateAB 5 (FieldValue.grade "C")).subjects =
        stateAB.subjects :=
  ⟨(handleSubjectChange_frame stateAB 1 (FieldValue.grade "C")).2.1 1
      ⟨1, "Subject 2", "B", "3", false⟩ (by decide),
    (handleSubjectChange_frame stateAB 5 (FieldValue.grade "C")).2.2.1
      (Or.inr (by decide))⟩

/-! ## The subject table of the report -/

/-- C10. The rows of the subject table are the non-excluded subjects of the
current list in their order: there are as many rows as such subjects, row `i`
(counting from 0) carries the number `i + 1` and the name, grade and credits
of the `i`-th non-excluded subject, every subject listed is a non-excluded
subject of the list, the rows are those of the list with the excluded
subjects removed, and the document is a text that does not depend on the
subjects, followed by the joined rows and the fixed closing text. -/
theorem reportRows_spec (s : AppState) (date : String) :
    (reportRows s.subjects).length =
        (s.subjects.filter fun x => !x.excluded).length ∧
      (∀ (i : ℕ) (subj : Subject),
        (s.subjects.filter fun x => !x.excluded)[i]? = some subj →
          (reportRows s.subjects)[i]? =
            some ("<tr><td>" ++ toString (i + 1) ++ "</td><td>" ++ subj.name ++
              "</td><td>" ++ subj.grade ++ "</td><td>" ++ subj.credits ++
              "</td></tr>")) ∧
      (∀ subj ∈ s.subjects.filter fun x => !x.excluded,
        subj ∈ s.subjects ∧ subj.excluded = false) ∧
      reportRows s.subjects = reportRows (s.subjects.filter fun x => !x.excluded) ∧
      (∃ head : String, ∀ subjects : List Subject,
        buildReportHtml { s with subjects := subjects } date =
          head ++ String.join (reportRows subjects) ++ reportPart6) := by
  refine ⟨by simp [reportRows, included], ?_, ?_, ?_,
    ⟨reportPart1 ++
        (if s.studentName ≠ "" then "_" ++ fileSafe s.studentName else "") ++
        reportPart2 ++ date ++ reportPart3 ++
        (if s.studentName ≠ "" then "Student: " ++ s.studentName else "") ++
        reportPart4 ++ (s.cgpa.getD "-") ++ reportPart5, fun _ => rfl⟩⟩
  · intro i subj h
    have h' : (included s.subjects)[i]? = some subj := h
    simp only [reportRows, List.getElem?_mapIdx, h', Option.map_some', reportRow]
  · intro subj h
    have hm := List.mem_filter.mp h
    exact ⟨hm.1, by simpa using hm.2⟩
  · have h := included_included s.subjects
    unfold included at h
    simp only [reportRows, included, h]

/-- C10 at one excluded and one included subject: the table has the single
row of the included subject, numbered 1. -/
theorem reportRows_spec_witness :
    (reportRows subjectsExcludedF).length = 1 ∧
      (reportRows subjectsExcludedF)[0]? =
        some "<tr><td>1</td><td>Subject 2</td><td>F</td><td>5</td></tr>" :=
  ⟨(reportRows_spec { stateAB with subjects := subjectsExcludedF } "").1.trans
      (by decide),
    ((reportRows_spec { stateAB with subjects := subjectsExcludedF } "").2.1 0
      ⟨1, "Subject 2", "F", "5", false⟩ (by decide)).trans (by decide)⟩

/-! ## Freshness is invariant -/

theorem consistent_initial : Consistent AppState.initial :=
  ⟨Or.inl ⟨rfl, rfl⟩, fun _ h => Option.noConfusion h⟩

theorem consistent_step (s : AppState) (e : Event) (h : Consistent s) :
    Consistent (step s e) := by
  obtain ⟨hcur, hsaved⟩ := h
  cases e with
  | setSubjectCount num =>
    have hd : (step s (Event.setSubjectCount num)).cgpaData = s.cgpaData :=
      step_cgpaData_of_isEdit s _ rfl
    refine ⟨?_, fun d hdd => hsaved d (hd ▸ hdd)⟩
    cases ht : arrayFromThrows num with
    | true =>
      have hs : step s (Event.setSubjectCount num) =
          { s with numSubjects := NumSubjects.ofParseInt num } := by
        simp [step, handleNumSubjectsChange, ht]
      rw [hs]
      exact hcur
    | false =>
      have hc : (step s (Event.setSubjectCount num)).cgpa = none := by
        simp [step, handleNumSubjectsChange, ht]
      have hp : (step s (Event.setSubjectCount num)).percentage = none := by
        simp [step, handleNumSubjectsChange, ht]
      exact Or.inl ⟨hc, hp⟩
  | updateSubject index fv => exact ⟨Or.inl ⟨rfl, rfl⟩, hsaved⟩
  | calculate =>
    simp only [step, clickCalculate]
    cases hc : calculateCGPA s.subjects with
    | result c p => exact ⟨Or.inr ⟨c, p, rfl, rfl, hc⟩, hsaved⟩
    | alert m => exact ⟨hcur, hsaved⟩
  | reset => exact ⟨Or.inl ⟨rfl, rfl⟩, hsaved⟩
  | editName value => exact ⟨hcur, hsaved⟩
  | save timestamp =>
    refine ⟨hcur, ?_⟩
    intro d hd
    simp only [step, saveToLocalStorage, Option.some.injEq] at hd
    subst hd
    exact hcur
  | load =>
    simp only [step, loadFromLocalStorage]
    cases hd : s.cgpaData with
    | none => exact ⟨hcur, fun d h => hsaved d (hd ▸ h)⟩
    | some d => exact ⟨hsaved d hd, fun d' h => hsaved d' (hd ▸ h)⟩

theorem consistent_run (events : List Event) (s : AppState) (h : Consistent s) :
    Consistent (run s events) := by
  induction events generalizing s with
  | nil => exact h
  | cons e rest ih =>
    unfold run at ih ⊢
    rw [List.foldl_cons]
    exact ih (step s e) (consistent_step s e h)

/-- C7. In every state reached from the initial state (no subjects, no
result, nothing stored) by subject-count changes, subject edits,
calculations, resets, name edits, saves and loads: if cgpa or percentage is
present then both are, and they are what `calculateCGPA` produces on the
current subjects; and if `calculateCGPA` fails on the current subjects then
neither is present. -/
theorem result_never_stale (events : List Event) :
    ((run AppState.initial events).cgpa ≠ none ∨
        (run AppState.initial events).percentage ≠ none →
      ∃ c p, (run AppState.initial events).cgpa = some c ∧
        (run AppState.initial events).percentage = some p ∧
        calculateCGPA (run AppState.initial events).subjects = Outcome.result c p) ∧
      ((∃ message, calculateCGPA (run AppState.initial events).subjects =
          Outcome.alert message) →
        (run AppState.initial events).cgpa = none ∧
          (run AppState.initial events).percentage = none) := by
  have h := (consistent_run events AppState.initial consistent_initial).1
  constructor
  · intro hpresent
    rcases h with ⟨h1, h2⟩ | h
    · rcases hpresent with hp | hp
      · exact absurd h1 hp
      · exact absurd h2 hp
    · exact h
  · rintro ⟨m, hm⟩
    rcases h with h | ⟨c, p, _, _, hc⟩
    · exact h
    · rw [hm] at hc
      exact Outcome.noConfusion hc

/-- On the session that gives the one subject the grade `constructor` and 3
credits and calculates, the cgpa shown is "NaN": the lookup of that grade
finds an inherited member, so no alert is raised and the result shown is the
one `calculateCGPA` produces on the subjects shown. -/
theorem result_inherited_grade :
    (run AppState.initial sessionInherited).cgpa = some "NaN" ∧
      (run AppState.initial sessionInherited).percentage = some "NaN" ∧
      calculateCGPA (run AppState.initial sessionInherited).subjects =
        Outcome.result "NaN" "NaN" := by
  decide!

/-- C7 on a session that fills in two subjects, calculates, saves, resets and
loads: the cgpa shown at the end is "8.57" and it is what `calculateCGPA`
produces on the subjects shown. -/
theorem result_never_stale_witness :
    (run AppState.initial sessionAB).cgpa = some "8.57" ∧
      ∃ c p, (run AppState.initial sessionAB).cgpa = some c ∧
        (run AppState.initial sessionAB).percentage = some p ∧
        calculateCGPA (run AppState.initial sessionAB).subjects = Outcome.result c p :=
  ⟨by decide!, (result_never_stale sessionAB).1 (Or.inl (by decide!))⟩

/-! ## Subject ids -/

theorem subjectIds_newSubjects (n : ℕ) :
    subjectIds ((List.range n).map newSubject) = List.range n := by
  unfold subjectIds
  rw [List.map_map]
  exact List.map_id'' (fun _ => rfl) _

theorem withField_id (subject : Subject) (fv : FieldValue) :
    (subject.withField fv).id = subject.id := by
  cases fv <;> rfl

theorem subjectIds_handleSubjectChange (s : AppState) (index : ℤ) (fv : FieldValue) :
    subjectIds (handleSubjectChange s index fv).subjects = subjectIds s.subjects := by
  unfold subjectIds
  apply List.ext_getElem?
  intro i
  simp only [handleSubjectChange, List.getElem?_map, List.getElem?_mapIdx]
  cases s.subjects[i]? with
  | none => rfl
  | some subj =>
    simp only [Option.map_some']
    split
    · rw [withField_id]
    · rfl

/-- The ids that one subject-count change assigns are `0, 1, ..., n - 1`,
whatever the state before; above the largest array length the handler throws
and the list, with its ids, stays as it was. -/
theorem subjectIds_handleNumSubjectsChange (s : AppState) (n : ℤ) :
    subjectIds (handleNumSubjectsChange s (some n)).1.subjects =
      if n ≤ maxArrayLength then List.range n.toNat else subjectIds s.subjects := by
  split
  · rename_i hmax
    rcases lt_or_le 0 n with hn | hn
    · rw [subjects_of_pos s n hn hmax, subjectIds_newSubjects]
    · rw [subjects_of_nonpos s n hn, Int.toNat_of_nonpos hn]
      rfl
  · rename_i hmax
    rw [handleNumSubjectsChange_of_gt s n (not_le.mp hmax)]

theorem idsDistinct_initial : IdsDistinct AppState.initial :=
  ⟨List.nodup_nil, fun _ h => Option.noConfusion h⟩

theorem idsDistinct_step (s : AppState) (e : Event) (h : IdsDistinct s) :
    IdsDistinct (step s e) := by
  obtain ⟨hcur, hsaved⟩ := h
  cases e with
  | setSubjectCount num =>
    have hd : (step s (Event.setSubjectCount num)).cgpaData = s.cgpaData :=
      step_cgpaData_of_isEdit s _ rfl
    refine ⟨?_, fun d hdd => hsaved d (hd ▸ hdd)⟩
    cases num with
    | none => exact List.nodup_nil
    | some n =>
      show (subjectIds (handleNumSubjectsChange s (some n)).1.subjects).Nodup
      rw [subjectIds_handleNumSubjectsChange]
      split
      · exact List.nodup_range _
      · exact hcur
  | updateSubject index fv =>
    refine ⟨?_, hsaved⟩
    show (subjectIds (handleSubjectChange s index fv).subjects).Nodup
    rw [subjectIds_handleSubjectChange]
    exact hcur
  | calculate =>
    simp only [step, clickCalculate]
    cases calculateCGPA s.subjects with
    | result c p => exact ⟨hcur, hsaved⟩
    | alert m => exact ⟨hcur, hsaved⟩
  | reset => exact ⟨List.nodup_nil, hsaved⟩
  | editName value => exact ⟨hcur, hsaved⟩
  | save timestamp =>
    refine ⟨hcur, ?_⟩
    intro d hd
    simp only [step, saveToLocalStorage, Option.some.injEq] at hd
    subst hd
    exact hcur
  | load =>
    simp only [step, loadFromLocalStorage]
    cases hd : s.cgpaData with
    | none => exact ⟨hcur, fun d h => hsaved d (hd ▸ h)⟩
    | some d => exact ⟨hsaved d hd, fun d' h => hsaved d' (hd ▸ h)⟩

theorem idsDistinct_run (events : List Event) (s : AppState) (h : IdsDistinct s) :
    IdsDistinct (run s events) := by
  induction events generalizing s with
  | nil => exact h
  | cons e rest ih =>
    unfold run at ih ⊢
    rw [List.foldl_cons]
    exact ih (step s e) (idsDistinct_step s e h)

/-- C11 as stated fails: in one session a subject-count change to 2 assigns
the ids 0 and 1, and the next change, to 1, assigns the id 0 again. -/
theorem ids_reused_counterexample :
    subjectIds (run AppState.initial (twoCountChanges.take 1)).subjects = [0, 1] ∧
      subjectIds (run AppState.initial twoCountChanges).subjects = [0] ∧
      ∃ i, i ∈ subjectIds (run AppState.initial (twoCountChanges.take 1)).subjects ∧
        i ∈ subjectIds (run AppState.initial twoCountChanges).subjects :=
  ⟨by decide, by decide, 0, by decide, by decide⟩

/-- C11, amended. In every state reached from the initial state by
subject-count changes, subject edits, calculations, resets, name edits, saves
and loads, the subjects of the current list have pairwise distinct ids; and
a subject-count change to `n` assigns exactly the ids `0, ..., n - 1`
(none for `n ≤ 0` or `NaN`), whatever ids earlier changes assigned; above the
largest array length `2^32 - 1` it throws and assigns none, the list staying
as it was. -/
theorem ids_distinct (events : List Event) (s : AppState) (n : ℤ) :
    (subjectIds (run AppState.initial events).subjects).Nodup ∧
      subjectIds (handleNumSubjectsChange s (some n)).1.subjects =
        (if n ≤ maxArrayLength then List.range n.toNat else subjectIds s.subjects) ∧
      subjectIds (handleNumSubjectsChange s none).1.subjects = [] :=
  ⟨(idsDistinct_run events AppState.initial idsDistinct_initial).1,
    subjectIds_handleNumSubjectsChange s n, rfl⟩

end CGPA
